import Mathlib

/-!
Verification of the Gale–Shapley ("Stable Marriages") notebook.

The source is a single Python notebook defining three classes:
`Man`, `Woman`, and `Stable_Marriages`.  The embedding below translates
them into pure Lean functions with explicit state passing:

* Python object references are replaced by ids (`mid` / `wid`); a mutation
  performed through a reference (e.g. `self.partner.is_free = True` inside
  `Woman.decide`) is modelled by updating the entry with the referenced id
  in the relevant list.  This is adequate for all states whose ids are
  duplicate-free, which covers every state considered below.
* `math.inf` (for `Man.partner_rank`) and Python `None`
  (for `Woman.partner_rank`) are both modelled as `none`: the code only ever
  compares `partner_rank` when the woman is engaged, in which case it is an
  integer.
* `list.index(x)` raises `ValueError` when `x` is absent; it is modelled by
  the total function `listIndex`, which returns the length when `x` is
  absent.  All uses below are guarded by membership facts.
* `list.pop(0)` raises `IndexError` on an empty list; the corresponding
  branch of the matcher is modelled by the `crash` exit kind, as are the
  `None`-propagation failures (`getSuitress` returning `None`).
* The `match` loop reads the *module-level* variables `men` and `women`
  (not `self.men` / `self.women`), so the matcher state carries the global
  lists `gMen` / `gWomen` separately from the constructor data it actually
  uses (`applicants`, `freeMen`, `matching_status`, and the wids of
  `self.women`, which `getSuitress` consults).  `self.women` is read only
  through the (immutable) `wid` fields of its elements, so storing those
  wids is a faithful rendering.
* The `while` loop is modelled with explicit fuel; the termination theorem
  shows that `n² + 1` units of fuel always suffice on valid input.
-/

/-- `Man(id, preference_list)` from the notebook.  `max_proposals` is set by
the constructor but never read by the algorithm. -/
structure Man where
  mid : Nat
  pref_list : List Nat
  remaining_list : List Nat
  partner : Option Nat
  partner_rank : Option Nat
  is_free : Bool
  proposals_made : Nat
  max_proposals : Nat
  deriving Repr, DecidableEq

/-- `Man.__init__`: copies the preference list into `remaining_list`,
starts free with no partner and `partner_rank = math.inf`. -/
def mkMan (mid : Nat) (pref : List Nat) : Man :=
  { mid := mid, pref_list := pref, remaining_list := pref,
    partner := none, partner_rank := none, is_free := true,
    proposals_made := 0, max_proposals := pref.length }

/-- `Woman(id, preference_list)` from the notebook. -/
structure Woman where
  wid : Nat
  pref_list : List Nat
  partner : Option Nat
  partner_rank : Option Nat
  is_free : Bool
  proposals_received : Nat
  deriving Repr, DecidableEq

/-- `Woman.__init__`. -/
def mkWoman (wid : Nat) (pref : List Nat) : Woman :=
  { wid := wid, pref_list := pref, partner := none, partner_rank := none,
    is_free := true, proposals_received := 0 }

/-- Python `list.index(x)`: position of the first occurrence of `x`.
Returns the length when `x` is absent (where Python raises `ValueError`;
every use below is guarded by a membership fact). -/
def listIndex (l : List Nat) (x : Nat) : Nat :=
  match l with
  | [] => 0
  | y :: ys => if y = x then 0 else listIndex ys x + 1

/-- The decision dict returned by `Woman.decide`. -/
structure Decision where
  accepted : Bool
  broke_up : Bool
  deriving Repr, DecidableEq

/-- The mutation `decide` performs on the displaced man through the
`self.partner` reference: `is_free = True`, `partner = None`,
`partner_rank = math.inf`. -/
def disengage (m : Man) : Man :=
  { m with is_free := true, partner := none, partner_rank := none }

/-- `Woman.decide(man)`.  Besides updating the woman herself, a break-up
mutates the displaced man through the stored reference; the man list in
which that mutation lands is threaded through explicitly. -/
def Woman.decide (w : Woman) (manId : Nat) (gMen : List Man) :
    Decision × Woman × List Man :=
  let w1 : Woman := { w with proposals_received := w.proposals_received + 1 }
  let suitor_rank := listIndex w1.pref_list manId
  let first_proposal := w1.is_free
  let break_up := (!w1.is_free) && (match w1.partner_rank with
                   | some r => Nat.blt suitor_rank r
                   | none => false)
  if first_proposal || break_up then
    let gMen' := if break_up then
        gMen.map (fun m => if w1.partner = some m.mid then disengage m else m)
      else gMen
    (⟨true, break_up⟩,
     { w1 with partner := some manId, partner_rank := some suitor_rank,
               is_free := false },
     gMen')
  else
    (⟨false, false⟩, w1, gMen)

/-- `Man.getSuitressId`: pops the head of `remaining_list`.  `none` models
the `IndexError` Python raises on an empty list. -/
def Man.getSuitressId (m : Man) : Option (Nat × Man) :=
  match m.remaining_list with
  | [] => none
  | wid :: rest => some (wid, { m with remaining_list := rest })

/-- `Man.updatePartner(suitress)`. -/
def Man.updatePartner (m : Man) (suitress : Woman) : Man :=
  { m with partner := some suitress.wid,
           partner_rank := some (listIndex m.pref_list suitress.wid),
           is_free := false }

/-- The suitor record after `getSuitressId` popped the head of
`remaining_list` and `proposals_made += 1` ran. -/
def Man.propose (m : Man) (rest : List Nat) : Man :=
  { m with remaining_list := rest, proposals_made := m.proposals_made + 1 }

/-- The woman record produced by an accepting `decide`. -/
def Woman.accept (w : Woman) (manId : Nat) : Woman :=
  { w with proposals_received := w.proposals_received + 1,
           partner := some manId,
           partner_rank := some (listIndex w.pref_list manId),
           is_free := false }

/-- The woman record produced by a rejecting `decide`
(only the proposal counter moves). -/
def Woman.bump (w : Woman) : Woman :=
  { w with proposals_received := w.proposals_received + 1 }

/-- One entry of `Stable_Marriages.matching_status`. -/
structure MStatus where
  partner_id : Option Nat
  free : Bool
  proposals : Nat
  deriving Repr, DecidableEq

/-- Python dict assignment `d[k] = v`: overwrite in place if the key is
present, append otherwise. -/
def dictSet {β : Type} : List (Nat × β) → Nat → β → List (Nat × β)
  | [], k, v => [(k, v)]
  | kv :: rest, k, v =>
      if kv.1 = k then (k, v) :: rest else kv :: dictSet rest k v

/-- Python dict lookup `d[k]` (as an `Option`). -/
def dictGet? {β : Type} : List (Nat × β) → Nat → Option β
  | [], _ => none
  | kv :: rest, k => if kv.1 = k then some kv.2 else dictGet? rest k

/-- Run-level state of `Stable_Marriages` together with the module-level
`men` / `women` lists the loop actually reads and mutates. -/
structure SMState where
  gMen : List Man
  gWomen : List Woman
  womenWidsCtor : List Nat
  applicants : Nat
  freeMen : Int
  matching_status : List (Nat × MStatus)
  deriving Repr, DecidableEq

/-- `Stable_Marriages.__init__(men, women)`: raises unless the two
constructor arguments have equal length.  `ctorMen` / `ctorWomen` are the
constructor arguments, `gMen` / `gWomen` the module-level lists. -/
def smInit (ctorMen : List Man) (ctorWomen : List Woman)
    (gMen : List Man) (gWomen : List Woman) : Except String SMState :=
  if ctorMen.length = ctorWomen.length then
    .ok { gMen := gMen, gWomen := gWomen,
          womenWidsCtor := ctorWomen.map Woman.wid,
          applicants := ctorMen.length,
          freeMen := (ctorMen.length : Int),
          matching_status :=
            ctorMen.foldl
              (fun d m => dictSet d m.mid ⟨none, true, 0⟩) [] }
  else
    .error "Not equal Number of men and women"

/-- `Stable_Marriages.pairings()`. -/
def SMState.pairings (s : SMState) : List (Nat × Option Nat) :=
  s.matching_status.map (fun kv => (kv.1, kv.2.partner_id))

/-- The manual `for i in range(len(men)): if men[i].is_free: ... break`
scan: index of the first free man. -/
def findFreeIdx : List Man → Option Nat
  | [] => none
  | m :: rest =>
      if m.is_free then some 0 else (findFreeIdx rest).map (fun k => k + 1)

/-- Index of the first occurrence of a wid in a list of wids. -/
def findWidIdx : List Nat → Nat → Option Nat
  | [], _ => none
  | w :: rest, x =>
      if w = x then some 0 else (findWidIdx rest x).map (fun k => k + 1)

/-- `Stable_Marriages.getSuitress(wid)`: scans `self.women[i].wid` for
`i in range(self.applicants)` but returns the *module-level* `women[i]`.
The returned index is kept so the caller can write the mutated woman back.
`none` covers both Python outcomes that abort the round (`None` returned,
or `IndexError` on the global list). -/
def SMState.getSuitress (s : SMState) (wid : Nat) : Option (Nat × Woman) :=
  match findWidIdx (s.womenWidsCtor.take s.applicants) wid with
  | some i =>
      match s.gWomen[i]? with
      | some w => some (i, w)
      | none => none
  | none => none

/-- How one iteration of the `while` loop in `Stable_Marriages.match`
ends. -/
inductive ExitKind where
  /-- the guard `self.freeMen > 0` failed: the loop completed normally -/
  | normal
  /-- the `break` taken when the scan over the global `men` finds nobody -/
  | breakNoFree
  /-- `return 'ran out of women to propose to'` -/
  | ranOut
  /-- a Python exception (`IndexError` / `AttributeError`) -/
  | crash
  deriving Repr, DecidableEq

/-- The value `Stable_Marriages.match` returns to its caller:
the distinguished string on the ran-out path, `None` otherwise. -/
def matchReturn : ExitKind → Option String
  | .ranOut => some "ran out of women to propose to"
  | _ => none

/-- Outcome of one iteration of the loop body. -/
inductive StepRes where
  | cont (s : SMState)
  | halt (k : ExitKind) (s : SMState)
  deriving Repr, DecidableEq

/-- One iteration of the `while` body of `Stable_Marriages.match`
(the guard `self.freeMen > 0` is checked by `matchLoop`).
Python increments `suitor.proposals_made` between `getSuitress` and
`decide`; since `getSuitress` does not read the suitor, the pop and the
increment are applied together here. -/
def matchStep (s : SMState) : StepRes :=
  match findFreeIdx s.gMen with
  | none => .halt .breakNoFree s
  | some i =>
    match s.gMen[i]? with
    | none => .halt .crash s
    | some suitor =>
      if suitor.proposals_made < s.applicants then
        match suitor.remaining_list with
        | [] => .halt .crash s
        | suitress_id :: rest =>
          match s.getSuitress suitress_id with
          | none => .halt .crash s
          | some (j, suitress) =>
            let suitor2 : Man :=
              { suitor with remaining_list := rest,
                            proposals_made := suitor.proposals_made + 1 }
            let gMen1 := s.gMen.set i suitor2
            let dwm := suitress.decide suitor2.mid gMen1
            let decision := dwm.1
            let suitress1 := dwm.2.1
            let gMen2 := dwm.2.2
            let gWomen1 := s.gWomen.set j suitress1
            match gMen2[i]? with
            | none => .halt .crash s
            | some suitorCur =>
              let gMen3 := if decision.accepted then
                  gMen2.set i (suitorCur.updatePartner suitress1)
                else gMen2
              let free1 := if decision.accepted then s.freeMen - 1
                           else s.freeMen
              let free2 := if decision.broke_up then free1 + 1 else free1
              match gMen3[i]? with
              | none => .halt .crash s
              | some suitorF =>
                .cont { s with
                        gMen := gMen3, gWomen := gWomen1, freeMen := free2,
                        matching_status :=
                          dictSet s.matching_status suitorF.mid
                            ⟨suitorF.partner, suitorF.is_free,
                             suitorF.proposals_made⟩ }
      else .halt .ranOut s

/-- The `while(self.freeMen > 0)` loop of `Stable_Marriages.match`, with
explicit fuel.  Returns the exit kind, the final state, and the number of
proposal rounds executed; `none` means the fuel ran out. -/
def matchLoop : Nat → SMState → Option (ExitKind × SMState × Nat)
  | 0, _ => none
  | fuel + 1, s =>
    if 0 < s.freeMen then
      match matchStep s with
      | .cont s' =>
          match matchLoop fuel s' with
          | some (k, s2, r) => some (k, s2, r + 1)
          | none => none
      | .halt k s' => some (k, s', 0)
    else
      some (.normal, s, 0)

/-- Construct a `Stable_Marriages` instance and run `match`.  The
constructor arguments and the module-level lists are passed separately,
mirroring the notebook. -/
def runStable (ctorMen : List Man) (ctorWomen : List Woman)
    (gMen : List Man) (gWomen : List Woman) (fuel : Nat) :
    Except String (Option (ExitKind × SMState × Nat)) :=
  (smInit ctorMen ctorWomen gMen gWomen).map (matchLoop fuel)

/-- The notebook's actual usage: the constructor arguments *are* the
module-level lists, and `n² + 1` fuel is supplied (shown sufficient
below). -/
def runAliased (men : List Man) (women : List Woman) :
    Except String (Option (ExitKind × SMState × Nat)) :=
  runStable men women men women (men.length * men.length + 1)

/-- Extract the `pairings()` of a completed run. -/
def pairingsOf (r : Except String (Option (ExitKind × SMState × Nat))) :
    Option (List (Nat × Option Nat)) :=
  match r with
  | .ok (some (_, s, _)) => some s.pairings
  | _ => none

/-- A freshly constructed man: exactly what `Man.__init__` produces. -/
def FreshMan (m : Man) : Prop :=
  m.remaining_list = m.pref_list ∧ m.partner = none ∧
  m.partner_rank = none ∧ m.is_free = true ∧ m.proposals_made = 0

instance : DecidablePred FreshMan := fun m => by
  unfold FreshMan; infer_instance

/-- A freshly constructed woman: exactly what `Woman.__init__` produces. -/
def FreshWoman (w : Woman) : Prop :=
  w.partner = none ∧ w.partner_rank = none ∧ w.is_free = true ∧
  w.proposals_received = 0

instance : DecidablePred FreshWoman := fun w => by
  unfold FreshWoman; infer_instance

/-- Valid input per the spec: two equal-length groups of freshly
constructed agents with duplicate-free ids, each preference list a
permutation of the other group's ids. -/
def ValidInput (men : List Man) (women : List Woman) : Prop :=
  men.length = women.length ∧
  (men.map Man.mid).Nodup ∧
  (women.map Woman.wid).Nodup ∧
  (∀ m ∈ men, FreshMan m ∧ m.pref_list.Perm (women.map Woman.wid)) ∧
  (∀ w ∈ women, FreshWoman w ∧ w.pref_list.Perm (men.map Man.mid))

instance (men : List Man) (women : List Woman) :
    Decidable (ValidInput men women) := by
  unfold ValidInput; infer_instance

/-! ### Lemmas about the dict operations -/

theorem dictGet?_dictSet_self {β : Type} (d : List (Nat × β)) (k : Nat)
    (v : β) : dictGet? (dictSet d k v) k = some v := by
  induction d with
  | nil => simp [dictSet, dictGet?]
  | cons kv rest ih =>
    by_cases h : kv.1 = k
    · simp [dictSet, dictGet?, h]
    · simp [dictSet, dictGet?, h, ih]

theorem dictGet?_dictSet_ne {β : Type} (d : List (Nat × β)) (k k' : Nat)
    (v : β) (h : k' ≠ k) :
    dictGet? (dictSet d k v) k' = dictGet? d k' := by
  induction d with
  | nil => simp [dictSet, dictGet?, Ne.symm h]
  | cons kv rest ih =>
    by_cases h2 : kv.1 = k
    · simp [dictSet, dictGet?, h2, Ne.symm h]
    · simp [dictSet, dictGet?, h2, ih]

theorem dictSet_keys_of_mem {β : Type} (d : List (Nat × β)) (k : Nat)
    (v : β) (h : k ∈ d.map Prod.fst) :
    (dictSet d k v).map Prod.fst = d.map Prod.fst := by
  induction d with
  | nil => simp at h
  | cons kv rest ih =>
    by_cases h2 : kv.1 = k
    · simp [dictSet, h2]
    · have : k ∈ rest.map Prod.fst := by
        simp only [List.map_cons, List.mem_cons] at h
        exact h.resolve_left (fun h3 => h2 h3.symm)
      simp [dictSet, h2, ih this]

/-! ### One-round characterizations of `matchStep`

Under explicit hypotheses describing the scrutinized values, one loop
iteration is rewritten into an explicit successor state, split by the
three possible outcomes of `decide` (reject, accept while free, accept
with displacement), plus the ran-out return. -/

theorem matchStep_reject (s : SMState) (i j : Nat) (suitor : Man)
    (suitress : Woman) (wid : Nat) (rest : List Nat) (oldRank : Nat)
    (hidx : findFreeIdx s.gMen = some i)
    (hget : s.gMen[i]? = some suitor)
    (hlt : suitor.proposals_made < s.applicants)
    (hrem : suitor.remaining_list = wid :: rest)
    (hsw : s.getSuitress wid = some (j, suitress))
    (hwf : suitress.is_free = false)
    (hwr : suitress.partner_rank = some oldRank)
    (hworse : ¬ listIndex suitress.pref_list suitor.mid < oldRank) :
    matchStep s = .cont { s with
      gMen := s.gMen.set i (suitor.propose rest),
      gWomen := s.gWomen.set j suitress.bump,
      freeMen := s.freeMen,
      matching_status := dictSet s.matching_status suitor.mid
        ⟨suitor.partner, suitor.is_free, suitor.proposals_made + 1⟩ } := by
  have hi : i < s.gMen.length := (List.getElem?_eq_some_iff.mp hget).1
  have h1 : (s.gMen.set i (suitor.propose rest))[i]? =
      some (suitor.propose rest) := by
    simp [hi]
  simp only [matchStep, hidx, hget, hrem, hsw, if_pos hlt]
  simp only [Woman.decide, hwf, hwr, Nat.blt_eq, Bool.not_false,
    Bool.true_and, decide_eq_true_eq]
  rw [if_neg]
  · simp only [Man.propose] at h1
    simp [Man.propose, Woman.bump, hwf, hwr, h1]
  · simpa using hworse

theorem matchStep_accept_free (s : SMState) (i j : Nat) (suitor : Man)
    (suitress : Woman) (wid : Nat) (rest : List Nat)
    (hidx : findFreeIdx s.gMen = some i)
    (hget : s.gMen[i]? = some suitor)
    (hlt : suitor.proposals_made < s.applicants)
    (hrem : suitor.remaining_list = wid :: rest)
    (hsw : s.getSuitress wid = some (j, suitress))
    (hwf : suitress.is_free = true) :
    matchStep s = .cont { s with
      gMen := s.gMen.set i
        ((suitor.propose rest).updatePartner (suitress.accept suitor.mid)),
      gWomen := s.gWomen.set j (suitress.accept suitor.mid),
      freeMen := s.freeMen - 1,
      matching_status := dictSet s.matching_status suitor.mid
        ⟨some suitress.wid, false, suitor.proposals_made + 1⟩ } := by
  have hi : i < s.gMen.length := (List.getElem?_eq_some_iff.mp hget).1
  have h1 : (s.gMen.set i (suitor.propose rest))[i]? =
      some (suitor.propose rest) := by
    simp [hi]
  have h2 : ((s.gMen.set i (suitor.propose rest)).set i
      ((suitor.propose rest).updatePartner (suitress.accept suitor.mid)))[i]? =
      some ((suitor.propose rest).updatePartner
        (suitress.accept suitor.mid)) := by
    simp [hi]
  have h3 : (s.gMen.set i (suitor.propose rest)).set i
      ((suitor.propose rest).updatePartner (suitress.accept suitor.mid)) =
      s.gMen.set i
        ((suitor.propose rest).updatePartner (suitress.accept suitor.mid)) :=
    List.set_set _ _ _ _
  simp only [matchStep, hidx, hget, hrem, hsw, if_pos hlt]
  simp only [Woman.decide, hwf, Bool.not_true, Bool.false_and, Bool.or_false,
    Bool.true_or, if_pos]
  simp only [Man.propose, Man.updatePartner, Woman.accept] at h1 h2 h3
  simp [Man.propose, Man.updatePartner, Woman.accept, h1, h2, h3, hi]

theorem matchStep_accept_displace (s : SMState) (i j : Nat) (suitor : Man)
    (suitress : Woman) (wid : Nat) (rest : List Nat) (oldMid oldRank : Nat)
    (hidx : findFreeIdx s.gMen = some i)
    (hget : s.gMen[i]? = some suitor)
    (hlt : suitor.proposals_made < s.applicants)
    (hrem : suitor.remaining_list = wid :: rest)
    (hsw : s.getSuitress wid = some (j, suitress))
    (hwf : suitress.is_free = false)
    (hwp : suitress.partner = some oldMid)
    (hwr : suitress.partner_rank = some oldRank)
    (hbetter : listIndex suitress.pref_list suitor.mid < oldRank) :
    matchStep s = .cont { s with
      gMen := (s.gMen.map (fun m =>
          if (some oldMid : Option Nat) = some m.mid then
            disengage m else m)).set i
        ((suitor.propose rest).updatePartner (suitress.accept suitor.mid)),
      gWomen := s.gWomen.set j (suitress.accept suitor.mid),
      freeMen := s.freeMen,
      matching_status := dictSet s.matching_status suitor.mid
        ⟨some suitress.wid, false, suitor.proposals_made + 1⟩ } := by
  have hi : i < s.gMen.length := (List.getElem?_eq_some_iff.mp hget).1
  have h4 : ((if oldMid = (suitor.propose rest).mid then
      disengage (suitor.propose rest) else
      (suitor.propose rest)).updatePartner (suitress.accept suitor.mid)) =
      ((suitor.propose rest).updatePartner (suitress.accept suitor.mid)) := by
    by_cases hc : oldMid = (suitor.propose rest).mid
    · simp [hc, disengage, Man.updatePartner]
    · simp [hc]
  have hfm : s.freeMen - 1 + 1 = s.freeMen := by ring
  simp only [matchStep, hidx, hget, hrem, hsw, if_pos hlt]
  simp only [Woman.decide, hwf, hwp, hwr, Nat.blt_eq, Bool.not_false,
    Bool.true_and, decide_eq_true_eq]
  rw [if_pos]
  · simp only [Man.propose, Man.updatePartner, Woman.accept, disengage] at h4
    simp [Man.propose, Man.updatePartner, Woman.accept, disengage,
      hbetter, hi, hfm, h4, List.map_set]
  · simp [hbetter]

theorem matchStep_ranOut (s : SMState) (i : Nat) (suitor : Man)
    (hidx : findFreeIdx s.gMen = some i)
    (hget : s.gMen[i]? = some suitor)
    (hex : ¬ suitor.proposals_made < s.applicants) :
    matchStep s = .halt .ranOut s := by
  simp [matchStep, hidx, hget, hex]

/-! ### Basic facts about `Woman.decide` (claims C3, C4) -/

/-- Counterexample to C3's "otherwise rejects with the Reviewer's state
unchanged": a concrete engaged woman who rejects a lower-ranked candidate
yet whose state differs afterwards, because `decide` increments
`proposals_received` on every call. -/
theorem decide_reject_mutates_counter :
    (Woman.decide ⟨0, [5, 7], some 5, some 0, false, 0⟩ 7 []).1.accepted
        = false ∧
    (Woman.decide ⟨0, [5, 7], some 5, some 0, false, 0⟩ 7 []).2.1
        ≠ ⟨0, [5, 7], some 5, some 0, false, 0⟩ := by
  decide

/-- C3 (amended): `decide` accepts unconditionally when unengaged; accepts
and reports a break-up when the candidate ranks strictly better than the
current partner; otherwise rejects, leaving the engagement fields
(`partner`, `partner_rank`, `is_free`) unchanged — but in every branch the
`proposals_received` counter is incremented, so the rejected case does not
leave the whole state unchanged. -/
theorem decide_branch_characterization (w : Woman) (manId : Nat)
    (gMen : List Man) :
    (w.is_free = true →
      w.decide manId gMen =
        (⟨true, false⟩,
         { w with proposals_received := w.proposals_received + 1,
                  partner := some manId,
                  partner_rank := some (listIndex w.pref_list manId),
                  is_free := false },
         gMen)) ∧
    (∀ r, w.is_free = false → w.partner_rank = some r →
      listIndex w.pref_list manId < r →
      (w.decide manId gMen).1 = ⟨true, true⟩ ∧
      (w.decide manId gMen).2.1 =
        { w with proposals_received := w.proposals_received + 1,
                 partner := some manId,
                 partner_rank := some (listIndex w.pref_list manId),
                 is_free := false }) ∧
    (∀ r, w.is_free = false → w.partner_rank = some r →
      ¬ listIndex w.pref_list manId < r →
      w.decide manId gMen =
        (⟨false, false⟩,
         { w with proposals_received := w.proposals_received + 1 },
         gMen)) := by
  refine ⟨fun hf => ?_, fun r hf hr hlt => ?_, fun r hf hr hlt => ?_⟩
  · simp [Woman.decide, hf]
  · simp [Woman.decide, hf, hr, Nat.blt_eq, hlt]
  · simp [Woman.decide, hf, hr, Nat.blt_eq, hlt]

/-- Witness for `decide_branch_characterization`. -/
theorem decide_branch_characterization_witness :
    (Woman.decide ⟨0, [5, 7], some 5, some 0, false, 0⟩ 7 []).1
      = ⟨false, false⟩ ∧
    (Woman.decide ⟨0, [5, 7], some 5, some 0, false, 0⟩ 7 []).2.1
      = ⟨0, [5, 7], some 5, some 0, false, 1⟩ := by
  have h := (decide_branch_characterization
      ⟨0, [5, 7], some 5, some 0, false, 0⟩ 7 []).2.2 0 rfl rfl (by decide)
  rw [h]
  exact ⟨rfl, rfl⟩

/-- Counterexample to C4: a concrete `decide` call that displaces a
partner mutates that man's fields inside `decide` — the returned men list
differs from the one passed in. -/
theorem decide_mutates_displaced_counter :
    (Woman.decide ⟨0, [7, 3], some 3, some 1, false, 0⟩ 7
        [⟨3, [0], [], some 0, some 0, false, 1, 1⟩]).2.2
      ≠ [⟨3, [0], [], some 0, some 0, false, 1, 1⟩] := by
  decide

/-- C4 (amended): `decide` itself mutates the displaced Proposer.  When a
break-up occurs, the man list comes back with the partner's entry
disengaged (`is_free = true`, `partner = None`, `partner_rank = ∞`); when
no break-up occurs the man list is returned untouched.  The Matcher
performs no notification of its own — it only adjusts `freeMen`. -/
theorem decide_displacement_side_effect (w : Woman) (manId : Nat)
    (gMen : List Man) :
    (∀ oldMid r, w.is_free = false → w.partner = some oldMid →
      w.partner_rank = some r → listIndex w.pref_list manId < r →
      (w.decide manId gMen).2.2 =
        gMen.map (fun m => if (some oldMid : Option Nat) = some m.mid then
          disengage m else m)) ∧
    (w.is_free = true → (w.decide manId gMen).2.2 = gMen) ∧
    (∀ r, w.is_free = false → w.partner_rank = some r →
      ¬ listIndex w.pref_list manId < r →
      (w.decide manId gMen).2.2 = gMen) := by
  refine ⟨fun oldMid r hf hp hr hlt => ?_, fun hf => ?_,
          fun r hf hr hlt => ?_⟩
  · simp [Woman.decide, hf, hp, hr, Nat.blt_eq, hlt]
  · simp [Woman.decide, hf]
  · simp [Woman.decide, hf, hr, Nat.blt_eq, hlt]

/-- Witness for `decide_displacement_side_effect`. -/
theorem decide_displacement_side_effect_witness :
    (Woman.decide ⟨0, [7, 3], some 3, some 1, false, 0⟩ 7
        [⟨3, [0], [], some 0, some 0, false, 1, 1⟩]).2.2
      = [⟨3, [0], [], none, none, true, 1, 1⟩] := by
  have h := (decide_displacement_side_effect
      ⟨0, [7, 3], some 3, some 1, false, 0⟩ 7
      [⟨3, [0], [], some 0, some 0, false, 1, 1⟩]).1 3 1 rfl rfl rfl
      (by decide)
  rw [h]
  decide

/-! ### Construction-time behaviour (claims C7, C9) -/

/-- C7: constructing the engine with unequal group sizes fails immediately
with the construction error, and the whole run (`runStable`) surfaces that
error without the state machine ever being started. -/
theorem unequal_sizes_construction_fails (cm : List Man) (cw : List Woman)
    (gm : List Man) (gw : List Woman) (fuel : Nat)
    (h : cm.length ≠ cw.length) :
    smInit cm cw gm gw = .error "Not equal Number of men and women" ∧
    runStable cm cw gm gw fuel
      = .error "Not equal Number of men and women" := by
  have h1 : smInit cm cw gm gw
      = .error "Not equal Number of men and women" := by
    simp [smInit, h]
  exact ⟨h1, by simp [runStable, h1, Except.map]⟩

/-- Witness for `unequal_sizes_construction_fails`: the spec's error
scenario, three proposers versus four reviewers. -/
theorem unequal_sizes_construction_fails_witness :
    smInit [mkMan 0 [0], mkMan 1 [0], mkMan 2 [0]]
        [mkWoman 0 [0], mkWoman 1 [0], mkWoman 2 [0], mkWoman 3 [0]]
        [] [] = .error "Not equal Number of men and women" ∧
    runStable [mkMan 0 [0], mkMan 1 [0], mkMan 2 [0]]
        [mkWoman 0 [0], mkWoman 1 [0], mkWoman 2 [0], mkWoman 3 [0]]
        [] [] 5 = .error "Not equal Number of men and women" :=
  unequal_sizes_construction_fails _ _ _ _ 5 (by decide)

/-- Counterexample to C9: a malformed input — `Man 0`'s preference list
`[0, 0]` has duplicates, `Man 1`'s list `[1]` has the wrong length — on
which construction nevertheless succeeds: the constructor performs no
preference-list validation. -/
theorem malformed_prefs_accepted_counter :
    ∃ s, smInit [mkMan 0 [0, 0], mkMan 1 [1]]
        [mkWoman 0 [0, 1], mkWoman 1 [0, 1]]
        [mkMan 0 [0, 0], mkMan 1 [1]]
        [mkWoman 0 [0, 1], mkWoman 1 [0, 1]] = .ok s :=
  ⟨_, rfl⟩

/-- C9 (amended): construction succeeds exactly when the two groups have
equal length; the contents of the preference lists are never inspected, so
no `MalformedPreferenceList` failure exists. -/
theorem construction_checks_only_lengths (cm : List Man) (cw : List Woman)
    (gm : List Man) (gw : List Woman) :
    (∃ s, smInit cm cw gm gw = .ok s) ↔ cm.length = cw.length := by
  constructor
  · intro ⟨s, hs⟩
    by_contra h
    simp [smInit, h] at hs
  · intro h
    exact ⟨{ gMen := gm, gWomen := gw, womenWidsCtor := cw.map Woman.wid,
             applicants := cm.length, freeMen := (cm.length : Int),
             matching_status :=
               cm.foldl (fun d m => dictSet d m.mid ⟨none, true, 0⟩) [] },
           by unfold smInit; rw [if_pos h]⟩

/-- Witness for `construction_checks_only_lengths`. -/
theorem construction_checks_only_lengths_witness :
    ∃ s, smInit [mkMan 0 [0, 0], mkMan 1 [1]]
        [mkWoman 0 [0, 1], mkWoman 1 [0, 1]] [] [] = .ok s :=
  (construction_checks_only_lengths _ _ _ _).mpr (by decide)

/-! ### Dependence on the module-level lists (claim C10) -/

/-- C10: two runs constructed from equal constructor argument lists but
with different module-level `men` bindings produce different pairings:
the free-suitor scan and `getSuitress` read the module-level lists, not
`self.men` / `self.women`.  The woman's preference list `[0, 1]` contains
both men's ids, so every `list.index` (and `pop`) call in both runs is on
a present element and neither run raises: run A matches man `0` with
woman `0`; run B matches the module-level man `1` (rank `1` in her list)
with her, leaving constructor man `0`'s entry unmatched and appending a
new key `1`. -/
theorem match_depends_on_globals :
    pairingsOf (runStable [mkMan 0 [0]] [mkWoman 0 [0, 1]]
        [mkMan 0 [0]] [mkWoman 0 [0, 1]] 2) = some [(0, some 0)] ∧
    pairingsOf (runStable [mkMan 0 [0]] [mkWoman 0 [0, 1]]
        [mkMan 1 [0]] [mkWoman 0 [0, 1]] 2)
      = some [(0, none), (1, some 0)] ∧
    some [(0, some 0)] ≠ some [(0, none), (1, some 0)] := by
  refine ⟨by decide, by decide, by decide⟩

/-! ### The ran-out return (claim C8) -/

/-- C8: whenever the selected free suitor has exhausted his proposals
(`proposals_made ≥ applicants`, i.e. the cursor passed the end of his
preference list), the loop immediately returns the distinguished
ran-out result — no further proposal round runs and the run does not
complete normally.  `matchReturn` is the value `match` hands back to the
caller on this path. -/
theorem exhausted_suitor_aborts_run (s : SMState) (i : Nat) (suitor : Man)
    (fuel : Nat)
    (hfree : 0 < s.freeMen)
    (hidx : findFreeIdx s.gMen = some i)
    (hget : s.gMen[i]? = some suitor)
    (hex : ¬ suitor.proposals_made < s.applicants) :
    matchLoop (fuel + 1) s = some (.ranOut, s, 0) ∧
    matchReturn .ranOut = some "ran out of women to propose to" ∧
    ExitKind.ranOut ≠ ExitKind.normal := by
  refine ⟨?_, rfl, by decide⟩
  have hstep := matchStep_ranOut s i suitor hidx hget hex
  simp [matchLoop, hfree, hstep]

/-- Witness for `exhausted_suitor_aborts_run`: a state whose only (free)
man has spent all his proposals. -/
theorem exhausted_suitor_aborts_run_witness :
    matchLoop 3
      { gMen := [⟨0, [0], [], none, none, true, 1, 1⟩],
        gWomen := [mkWoman 0 [0]], womenWidsCtor := [0], applicants := 1,
        freeMen := 1, matching_status := [(0, ⟨none, true, 1⟩)] }
      = some (.ranOut,
        { gMen := [⟨0, [0], [], none, none, true, 1, 1⟩],
          gWomen := [mkWoman 0 [0]], womenWidsCtor := [0], applicants := 1,
          freeMen := 1, matching_status := [(0, ⟨none, true, 1⟩)] }, 0) ∧
    matchReturn .ranOut = some "ran out of women to propose to" ∧
    ExitKind.ranOut ≠ ExitKind.normal :=
  exhausted_suitor_aborts_run _ 0 ⟨0, [0], [], none, none, true, 1, 1⟩ 2
    (by decide) (by decide) (by decide) (by decide)

/-! ### Bookkeeping of a displacement round (claim C5) -/

/-- Counterexample to C5's "the result mapping contains no entry for the
displaced Proposer": a reachable two-round run (men `0`,`1` both prefer
woman `0`; woman `0` prefers man `1`) whose second round displaces man
`0` — afterwards man `0` is free again, yet `matching_status` still holds
his stale entry `(partner 0, engaged, 1 proposal)`. -/
theorem stale_entry_persists_counter :
    smInit [mkMan 0 [0, 1], mkMan 1 [0, 1]]
        [mkWoman 0 [1, 0], mkWoman 1 [0, 1]]
        [mkMan 0 [0, 1], mkMan 1 [0, 1]]
        [mkWoman 0 [1, 0], mkWoman 1 [0, 1]] = .ok
      { gMen := [mkMan 0 [0, 1], mkMan 1 [0, 1]],
        gWomen := [mkWoman 0 [1, 0], mkWoman 1 [0, 1]],
        womenWidsCtor := [0, 1], applicants := 2, freeMen := 2,
        matching_status := [(0, ⟨none, true, 0⟩), (1, ⟨none, true, 0⟩)] } ∧
    matchStep
      { gMen := [mkMan 0 [0, 1], mkMan 1 [0, 1]],
        gWomen := [mkWoman 0 [1, 0], mkWoman 1 [0, 1]],
        womenWidsCtor := [0, 1], applicants := 2, freeMen := 2,
        matching_status := [(0, ⟨none, true, 0⟩), (1, ⟨none, true, 0⟩)] }
      = .cont
      { gMen := [⟨0, [0, 1], [1], some 0, some 0, false, 1, 2⟩,
                 mkMan 1 [0, 1]],
        gWomen := [⟨0, [1, 0], some 0, some 1, false, 1⟩, mkWoman 1 [0, 1]],
        womenWidsCtor := [0, 1], applicants := 2, freeMen := 1,
        matching_status := [(0, ⟨some 0, false, 1⟩), (1, ⟨none, true, 0⟩)] } ∧
    matchStep
      { gMen := [⟨0, [0, 1], [1], some 0, some 0, false, 1, 2⟩,
                 mkMan 1 [0, 1]],
        gWomen := [⟨0, [1, 0], some 0, some 1, false, 1⟩, mkWoman 1 [0, 1]],
        womenWidsCtor := [0, 1], applicants := 2, freeMen := 1,
        matching_status := [(0, ⟨some 0, false, 1⟩), (1, ⟨none, true, 0⟩)] }
      = .cont
      { gMen := [⟨0, [0, 1], [1], none, none, true, 1, 2⟩,
                 ⟨1, [0, 1], [1], some 0, some 0, false, 1, 2⟩],
        gWomen := [⟨0, [1, 0], some 1, some 0, false, 2⟩, mkWoman 1 [0, 1]],
        womenWidsCtor := [0, 1], applicants := 2, freeMen := 1,
        matching_status := [(0, ⟨some 0, false, 1⟩),
                            (1, ⟨some 0, false, 1⟩)] } ∧
    dictGet? [(0, (⟨some 0, false, 1⟩ : MStatus)),
              (1, ⟨some 0, false, 1⟩)] 0 = some ⟨some 0, false, 1⟩ := by
  refine ⟨by rfl, by decide, by decide, by decide⟩

/-- C5 (amended): in a round whose decision is accepted with a displaced
Proposer, the Matcher updates `result[p.id] = r.id` for the accepted
suitor `p` and leaves `freeMen` unchanged overall (one decrement for the
engagement, one increment for the break-up); the displaced Proposer's
fields are reset inside `decide` itself, and its stale entry in the
result mapping is *not* removed — every key other than the suitor's keeps
exactly the entry it had before the round. -/
theorem displacement_round_bookkeeping (s : SMState) (i j : Nat)
    (suitor : Man) (suitress : Woman) (wid : Nat) (rest : List Nat)
    (oldMid oldRank : Nat)
    (hidx : findFreeIdx s.gMen = some i)
    (hget : s.gMen[i]? = some suitor)
    (hlt : suitor.proposals_made < s.applicants)
    (hrem : suitor.remaining_list = wid :: rest)
    (hsw : s.getSuitress wid = some (j, suitress))
    (hwf : suitress.is_free = false)
    (hwp : suitress.partner = some oldMid)
    (hwr : suitress.partner_rank = some oldRank)
    (hbetter : listIndex suitress.pref_list suitor.mid < oldRank) :
    ∃ s', matchStep s = .cont s' ∧
      s'.freeMen = s.freeMen ∧
      dictGet? s'.matching_status suitor.mid
        = some ⟨some suitress.wid, false, suitor.proposals_made + 1⟩ ∧
      ∀ k, k ≠ suitor.mid →
        dictGet? s'.matching_status k = dictGet? s.matching_status k := by
  refine ⟨_, matchStep_accept_displace s i j suitor suitress wid rest oldMid
    oldRank hidx hget hlt hrem hsw hwf hwp hwr hbetter, rfl, ?_, ?_⟩
  · exact dictGet?_dictSet_self _ _ _
  · intro k hk
    exact dictGet?_dictSet_ne _ _ _ _ hk

/-- Witness for `displacement_round_bookkeeping`: the displacing round of
the two-round run above. -/
theorem displacement_round_bookkeeping_witness :
    ∃ s', matchStep
      { gMen := [⟨0, [0, 1], [1], some 0, some 0, false, 1, 2⟩,
                 mkMan 1 [0, 1]],
        gWomen := [⟨0, [1, 0], some 0, some 1, false, 1⟩, mkWoman 1 [0, 1]],
        womenWidsCtor := [0, 1], applicants := 2, freeMen := 1,
        matching_status := [(0, ⟨some 0, false, 1⟩), (1, ⟨none, true, 0⟩)] }
      = .cont s' ∧
      s'.freeMen = 1 ∧
      dictGet? s'.matching_status 1 = some ⟨some 0, false, 1⟩ ∧
      ∀ k, k ≠ 1 → dictGet? s'.matching_status k
        = dictGet? [(0, (⟨some 0, false, 1⟩ : MStatus)),
                    (1, ⟨none, true, 0⟩)] k :=
  displacement_round_bookkeeping _ 1 0 (mkMan 1 [0, 1])
    ⟨0, [1, 0], some 0, some 1, false, 1⟩ 0 [1] 0 1
    (by decide) (by decide) (by decide) (by decide) (by decide)
    (by decide) (by decide) (by decide) (by decide)

/-! ### Helper lemmas: `listIndex`, the index scans, counting, sums -/

theorem listIndex_lt_length {l : List Nat} {x : Nat} (h : x ∈ l) :
    listIndex l x < l.length := by
  induction l with
  | nil => simp at h
  | cons y ys ih =>
    by_cases h2 : y = x
    · simp [listIndex, h2]
    · have : x ∈ ys := by
        rcases List.mem_cons.mp h with h3 | h3
        · exact absurd h3.symm h2
        · exact h3
      simp only [listIndex, h2, if_false, List.length_cons]
      exact Nat.succ_lt_succ (ih this)

theorem getElem?_listIndex {l : List Nat} {x : Nat} (h : x ∈ l) :
    l[listIndex l x]? = some x := by
  induction l with
  | nil => simp at h
  | cons y ys ih =>
    by_cases h2 : y = x
    · simp [listIndex, h2]
    · have : x ∈ ys := by
        rcases List.mem_cons.mp h with h3 | h3
        · exact absurd h3.symm h2
        · exact h3
      simp [listIndex, h2, ih this]

theorem listIndex_getElem? {l : List Nat} {x : Nat} {k : Nat}
    (hnd : l.Nodup) (h : l[k]? = some x) : listIndex l x = k := by
  induction l generalizing k with
  | nil => simp at h
  | cons y ys ih =>
    match k with
    | 0 =>
      simp only [List.getElem?_cons_zero, Option.some.injEq] at h
      simp [listIndex, h]
    | k + 1 =>
      simp only [List.getElem?_cons_succ] at h
      have hx : x ∈ ys := List.getElem?_mem h
      have hy : y ≠ x := by
        intro hyx
        exact (List.nodup_cons.mp hnd).1 (hyx ▸ hx)
      simp [listIndex, hy, ih (List.nodup_cons.mp hnd).2 h]

theorem findFreeIdx_none {l : List Man} (h : findFreeIdx l = none) :
    ∀ m ∈ l, m.is_free = false := by
  induction l with
  | nil => simp
  | cons m rest ih =>
    intro m' hm'
    by_cases h2 : m.is_free
    · simp [findFreeIdx, h2] at h
    · rcases List.mem_cons.mp hm' with h3 | h3
      · subst h3
        exact Bool.not_eq_true _ ▸ (by simpa using h2)
      · have : findFreeIdx rest = none := by
          simp only [findFreeIdx, h2, if_false, Option.map_eq_none] at h
          simpa using h
        exact ih this m' h3

theorem findFreeIdx_some {l : List Man} {i : Nat}
    (h : findFreeIdx l = some i) :
    ∃ m, l[i]? = some m ∧ m.is_free = true := by
  induction l generalizing i with
  | nil => simp [findFreeIdx] at h
  | cons m rest ih =>
    by_cases h2 : m.is_free
    · simp only [findFreeIdx, h2, if_true, Option.some.injEq] at h
      exact ⟨m, by simp [← h], h2⟩
    · cases hrest : findFreeIdx rest with
      | none => rw [findFreeIdx, if_neg h2, hrest] at h; simp at h
      | some k =>
        rw [findFreeIdx, if_neg h2, hrest] at h
        simp only [Option.map_some', Option.some.injEq] at h
        subst h
        rcases ih hrest with ⟨m', hm', hf⟩
        exact ⟨m', by simpa using hm', hf⟩

theorem findWidIdx_some {l : List Nat} {x : Nat} {i : Nat}
    (h : findWidIdx l x = some i) : l[i]? = some x := by
  induction l generalizing i with
  | nil => simp [findWidIdx] at h
  | cons y rest ih =>
    by_cases h2 : y = x
    · simp only [findWidIdx, h2, if_true, Option.some.injEq] at h
      simp [← h, h2]
    · cases hrest : findWidIdx rest x with
      | none => rw [findWidIdx, if_neg h2, hrest] at h; simp at h
      | some k =>
        rw [findWidIdx, if_neg h2, hrest] at h
        simp only [Option.map_some', Option.some.injEq] at h
        subst h
        simpa using ih hrest

theorem findWidIdx_isSome {l : List Nat} {x : Nat} (h : x ∈ l) :
    ∃ i, findWidIdx l x = some i := by
  induction l with
  | nil => simp at h
  | cons y rest ih =>
    by_cases h2 : y = x
    · exact ⟨0, by simp [findWidIdx, h2]⟩
    · have : x ∈ rest := by
        rcases List.mem_cons.mp h with h3 | h3
        · exact absurd h3.symm h2
        · exact h3
      rcases ih this with ⟨k, hk⟩
      exact ⟨k + 1, by simp [findWidIdx, h2, hk]⟩

theorem countP_set_eq {α : Type} (p : α → Bool) (l : List α) (i : Nat)
    (a b : α) (h : l[i]? = some a) :
    (l.set i b).countP p + (if p a then 1 else 0)
      = l.countP p + (if p b then 1 else 0) := by
  induction l generalizing i with
  | nil => simp at h
  | cons x rest ih =>
    match i with
    | 0 =>
      simp only [List.getElem?_cons_zero, Option.some.injEq] at h
      subst h
      simp only [List.set_cons_zero, List.countP_cons]
      omega
    | i + 1 =>
      simp only [List.getElem?_cons_succ] at h
      simp only [List.set_cons_succ, List.countP_cons]
      have := ih i h
      omega

theorem countP_set_congr {α : Type} (p : α → Bool) (l : List α) (i : Nat)
    (a b : α) (h : l[i]? = some a) (hp : p a = p b) :
    (l.set i b).countP p = l.countP p := by
  have hc := countP_set_eq p l i a b h
  rw [hp] at hc
  omega

theorem countP_set_tf {α : Type} (p : α → Bool) (l : List α) (i : Nat)
    (a b : α) (h : l[i]? = some a) (hpa : p a = true) (hpb : p b = false) :
    (l.set i b).countP p + 1 = l.countP p := by
  have hc := countP_set_eq p l i a b h
  rw [hpa, hpb] at hc
  simpa using hc

theorem countP_set_ft {α : Type} (p : α → Bool) (l : List α) (i : Nat)
    (a b : α) (h : l[i]? = some a) (hpa : p a = false) (hpb : p b = true) :
    (l.set i b).countP p = l.countP p + 1 := by
  have hc := countP_set_eq p l i a b h
  rw [hpa, hpb] at hc
  simpa using hc

theorem sum_map_set {α : Type} (f : α → Nat) (l : List α) (i : Nat)
    (a b : α) (h : l[i]? = some a) :
    ((l.set i b).map f).sum + f a = (l.map f).sum + f b := by
  induction l generalizing i with
  | nil => simp at h
  | cons x rest ih =>
    match i with
    | 0 =>
      simp only [List.getElem?_cons_zero, Option.some.injEq] at h
      subst h
      simp only [List.set_cons_zero, List.map_cons, List.sum_cons]
      omega
    | i + 1 =>
      simp only [List.getElem?_cons_succ] at h
      simp only [List.set_cons_succ, List.map_cons, List.sum_cons]
      have := ih i h
      omega

theorem nodup_map_getElem?_ne {α β : Type} (f : α → β) (l : List α)
    (hnd : (l.map f).Nodup) {k k' : Nat} {a b : α}
    (hk : l[k]? = some a) (hk' : l[k']? = some b) (hne : k ≠ k') :
    f a ≠ f b := by
  have h1 : (l.map f)[k]? = some (f a) := by simp [hk]
  have h2 : (l.map f)[k']? = some (f b) := by simp [hk']
  have hlen' : k' < (l.map f).length :=
    (List.getElem?_eq_some_iff.mp h2).1
  have hlen : k < (l.map f).length :=
    (List.getElem?_eq_some_iff.mp h1).1
  intro heq
  rcases Nat.lt_or_ge k k' with hlt | hge
  · exact List.nodup_iff_getElem?_ne_getElem?.mp hnd k k' hlt hlen'
      (by rw [h1, h2, heq])
  · have hlt : k' < k := Nat.lt_of_le_of_ne hge (Ne.symm hne)
    exact List.nodup_iff_getElem?_ne_getElem?.mp hnd k' k hlt hlen
      (by rw [h1, h2, heq])

/-- In a men list with duplicate-free mids, the disengage-by-reference map
inside `decide` touches exactly the displaced man's entry. -/
theorem map_disengage_eq_set (l : List Man) (i' : Nat) (dMan : Man)
    (hnd : (l.map Man.mid).Nodup)
    (hget : l[i']? = some dMan) :
    l.map (fun m => if (some dMan.mid : Option Nat) = some m.mid then
      disengage m else m) = l.set i' (disengage dMan) := by
  apply List.ext_getElem?
  intro k
  by_cases hk : k = i'
  · subst hk
    have hlt : k < l.length := (List.getElem?_eq_some_iff.mp hget).1
    rw [List.getElem?_map, hget, List.getElem?_set_self hlt]
    simp
  · rw [List.getElem?_map, List.getElem?_set_ne (Ne.symm hk)]
    cases hlk : l[k]? with
    | none => simp
    | some m =>
      have hne : m.mid ≠ dMan.mid :=
        nodup_map_getElem?_ne Man.mid l hnd hlk hget hk
      have hcond : ¬(dMan.mid = m.mid) := fun h => hne h.symm
      simp [hcond]

theorem dictSet_append_of_not_mem {β : Type} (d : List (Nat × β)) (k : Nat)
    (v : β) (h : k ∉ d.map Prod.fst) : dictSet d k v = d ++ [(k, v)] := by
  induction d with
  | nil => simp [dictSet]
  | cons kv rest ih =>
    simp only [List.map_cons, List.mem_cons] at h
    push_neg at h
    simp [dictSet, Ne.symm h.1, ih h.2]

theorem foldl_status_init (men : List Man) (d0 : List (Nat × MStatus))
    (hnd : (men.map Man.mid).Nodup)
    (hdisj : ∀ m ∈ men, m.mid ∉ d0.map Prod.fst) :
    men.foldl (fun d m => dictSet d m.mid ⟨none, true, 0⟩) d0
      = d0 ++ men.map (fun m => (m.mid, (⟨none, true, 0⟩ : MStatus))) := by
  induction men generalizing d0 with
  | nil => simp
  | cons a rest ih =>
    simp only [List.map_cons, List.nodup_cons] at hnd
    have hstep : dictSet d0 a.mid ⟨none, true, 0⟩
        = d0 ++ [(a.mid, ⟨none, true, 0⟩)] :=
      dictSet_append_of_not_mem d0 a.mid _
        (hdisj a (List.mem_cons_self a rest))
    have hdisj2 : ∀ m ∈ rest,
        m.mid ∉ (d0 ++ [(a.mid, (⟨none, true, 0⟩ : MStatus))]).map
          Prod.fst := by
      intro m hm
      simp only [List.map_append, List.mem_append, List.map_cons,
        List.map_nil, List.mem_singleton]
      push_neg
      refine ⟨hdisj m (List.mem_cons_of_mem a hm), ?_⟩
      intro hmem
      exact hnd.1 (hmem ▸ List.mem_map_of_mem Man.mid hm)
    simp only [List.foldl_cons, hstep]
    rw [ih _ hnd.2 hdisj2]
    simp

theorem dictGet?_of_nodup_keys {β : Type} (d : List (Nat × β)) (k : Nat)
    (kv : Nat × β) (hnd : (d.map Prod.fst).Nodup) (h : d[k]? = some kv) :
    dictGet? d kv.1 = some kv.2 := by
  induction d generalizing k with
  | nil => simp at h
  | cons x rest ih =>
    simp only [List.map_cons, List.nodup_cons] at hnd
    match k with
    | 0 =>
      simp only [List.getElem?_cons_zero, Option.some.injEq] at h
      subst h
      simp [dictGet?]
    | k + 1 =>
      simp only [List.getElem?_cons_succ] at h
      have hmem : kv ∈ rest := List.getElem?_mem h
      have hx : x.1 ≠ kv.1 := by
        intro heq
        exact hnd.1 (heq ▸ List.mem_map_of_mem Prod.fst hmem)
      simp [dictGet?, hx, ih _ hnd.2 h]

/-! ### The run invariant for the aliased (notebook) configuration -/

/-- The state `smInit men women men women` produces when the lengths are
equal. -/
def initState (men : List Man) (women : List Woman) : SMState :=
  { gMen := men, gWomen := women,
    womenWidsCtor := women.map Woman.wid,
    applicants := men.length,
    freeMen := (men.length : Int),
    matching_status :=
      men.foldl (fun d m => dictSet d m.mid ⟨none, true, 0⟩) [] }

theorem smInit_eq_initState (men : List Man) (women : List Woman)
    (h : men.length = women.length) :
    smInit men women men women = .ok (initState men women) := by
  unfold smInit initState
  rw [if_pos h]

/-- Invariant of the match loop, relative to the initial agent lists
`men0` / `women0` of a valid aliased run. -/
structure GSInv (men0 : List Man) (women0 : List Woman) (s : SMState) :
    Prop where
  lenM : s.gMen.length = men0.length
  lenW : s.gWomen.length = women0.length
  hApp : s.applicants = men0.length
  hWids : s.womenWidsCtor = women0.map Woman.wid
  manPt : ∀ (i : Nat) (m m0 : Man), s.gMen[i]? = some m → men0[i]? = some m0 →
    m.mid = m0.mid ∧ m.pref_list = m0.pref_list ∧
    m.remaining_list = m0.pref_list.drop m.proposals_made ∧
    m.proposals_made ≤ men0.length ∧
    (m.is_free = true → m.partner = none) ∧
    (m.is_free = false → ∃ (k w : Nat), m.proposals_made = k + 1 ∧
      m0.pref_list[k]? = some w ∧ m.partner = some w)
  womanPt : ∀ (j : Nat) (w w0 : Woman), s.gWomen[j]? = some w → women0[j]? = some w0 →
    w.wid = w0.wid ∧ w.pref_list = w0.pref_list ∧
    (w.is_free = true → w.partner = none) ∧
    (w.is_free = false → ∃ (mid : Nat), w.partner = some mid) ∧
    (∀ (mid : Nat), w.partner = some mid → w.is_free = false ∧
      w.partner_rank = some (listIndex w0.pref_list mid))
  sym1 : ∀ (i : Nat) (m : Man), s.gMen[i]? = some m → m.is_free = false →
    ∃ (j : Nat) (w : Woman), s.gWomen[j]? = some w ∧
      m.partner = some w.wid ∧ w.partner = some m.mid
  sym2 : ∀ (j : Nat) (w : Woman) (mid : Nat), s.gWomen[j]? = some w → w.partner = some mid →
    ∃ (i : Nat) (m : Man), s.gMen[i]? = some m ∧ m.mid = mid ∧
      m.is_free = false ∧ m.partner = some w.wid
  hist : ∀ (i : Nat) (m : Man) (k wid : Nat), s.gMen[i]? = some m → k < m.proposals_made →
    m.pref_list[k]? = some wid →
    ∃ (j : Nat) (w : Woman), s.gWomen[j]? = some w ∧ w.wid = wid ∧
      w.is_free = false ∧
      ∃ (r : Nat), w.partner_rank = some r ∧
        r ≤ listIndex w.pref_list m.mid
  freeCnt : s.freeMen = (s.gMen.countP (fun m => m.is_free) : Int)
  freeBal : s.gMen.countP (fun m => m.is_free)
      + s.gWomen.countP (fun w => !w.is_free) = men0.length
  statusKeys : s.matching_status.map Prod.fst = men0.map Man.mid
  statusAcc : ∀ (i : Nat) (m : Man), s.gMen[i]? = some m → m.is_free = false →
    dictGet? s.matching_status m.mid
      = some ⟨m.partner, false, m.proposals_made⟩

/-- The termination measure: total remaining proposals. -/
def measureGS (men0 : List Man) (s : SMState) : Nat :=
  (s.gMen.map (fun m => men0.length - m.proposals_made)).sum

theorem GSInv_init (men0 : List Man) (women0 : List Woman)
    (hv : ValidInput men0 women0) :
    GSInv men0 women0 (initState men0 women0) := by
  obtain ⟨hlen, hmnd, hwnd, hmen, hwomen⟩ := hv
  refine ⟨rfl, rfl, rfl, rfl, ?_, ?_, ?_, ?_, ?_, ?_, ?_, ?_, ?_⟩
  · -- manPt
    intro i m m0 hm hm0
    simp only [initState] at hm
    rw [hm0] at hm
    obtain rfl : m = m0 := (Option.some.inj hm).symm
    obtain ⟨⟨hrem, hp, hpr, hf, hmade⟩, _⟩ := hmen m (List.getElem?_mem hm0)
    refine ⟨rfl, rfl, by simp [hrem, hmade], by simp [hmade], fun _ => hp,
      fun hfree => ?_⟩
    rw [hf] at hfree
    cases hfree
  · -- womanPt
    intro j w w0 hw hw0
    simp only [initState] at hw
    rw [hw0] at hw
    obtain rfl : w = w0 := (Option.some.inj hw).symm
    obtain ⟨⟨hp, hpr, hf, _⟩, _⟩ := hwomen w (List.getElem?_mem hw0)
    refine ⟨rfl, rfl, fun _ => hp, fun hfree => ?_, fun mid hmid => ?_⟩
    · rw [hf] at hfree
      cases hfree
    · rw [hp] at hmid
      cases hmid
  · -- sym1
    intro i m hm hfree
    simp only [initState] at hm
    obtain ⟨⟨_, _, _, hf, _⟩, _⟩ := hmen m (List.getElem?_mem hm)
    rw [hf] at hfree
    cases hfree
  · -- sym2
    intro j w mid hw hmid
    simp only [initState] at hw
    obtain ⟨⟨hp, _, _, _⟩, _⟩ := hwomen w (List.getElem?_mem hw)
    rw [hp] at hmid
    cases hmid
  · -- hist
    intro i m k wid hm hk _
    simp only [initState] at hm
    obtain ⟨⟨_, _, _, _, hmade⟩, _⟩ := hmen m (List.getElem?_mem hm)
    rw [hmade] at hk
    cases hk
  · -- freeCnt
    simp only [initState]
    have : men0.countP (fun m => m.is_free) = men0.length := by
      rw [List.countP_eq_length]
      intro m hm
      exact (hmen m hm).1.2.2.2.1
    rw [this]
  · -- freeBal
    simp only [initState]
    have h1 : men0.countP (fun m => m.is_free) = men0.length := by
      rw [List.countP_eq_length]
      intro m hm
      exact (hmen m hm).1.2.2.2.1
    have h2 : women0.countP (fun w => !w.is_free) = 0 := by
      rw [List.countP_eq_zero]
      intro w hw
      simp [(hwomen w hw).1.2.2.1]
    rw [h1, h2]
    simp
  · -- statusKeys
    simp only [initState]
    rw [foldl_status_init men0 [] hmnd (by simp)]
    simp
  · -- statusAcc
    intro i m hm hfree
    simp only [initState] at hm
    obtain ⟨⟨_, _, _, hf, _⟩, _⟩ := hmen m (List.getElem?_mem hm)
    rw [hf] at hfree
    cases hfree

theorem GSInv.gMen_mids {men0 : List Man} {women0 : List Woman}
    {s : SMState} (inv : GSInv men0 women0 s) :
    s.gMen.map Man.mid = men0.map Man.mid := by
  apply List.ext_getElem?
  intro k
  rw [List.getElem?_map, List.getElem?_map]
  cases hk : s.gMen[k]? with
  | none =>
    have hlen : s.gMen.length ≤ k := by
      by_contra h
      push_neg at h
      rw [List.getElem?_eq_getElem h] at hk
      cases hk
    have : men0.length ≤ k := inv.lenM ▸ hlen
    rw [List.getElem?_eq_none this]
  | some m =>
    have hlt : k < s.gMen.length := (List.getElem?_eq_some_iff.mp hk).1
    have hlt0 : k < men0.length := inv.lenM ▸ hlt
    have hm0 : men0[k]? = some (men0.get ⟨k, hlt0⟩) := by
      simp [List.getElem?_eq_getElem hlt0]
    rw [hm0]
    simp only [Option.map_some']
    exact congrArg some ((inv.manPt k m _ hk hm0).1)

theorem GSInv.gWomen_wids {men0 : List Man} {women0 : List Woman}
    {s : SMState} (inv : GSInv men0 women0 s) :
    s.gWomen.map Woman.wid = women0.map Woman.wid := by
  apply List.ext_getElem?
  intro k
  rw [List.getElem?_map, List.getElem?_map]
  cases hk : s.gWomen[k]? with
  | none =>
    have hlen : s.gWomen.length ≤ k := by
      by_contra h
      push_neg at h
      rw [List.getElem?_eq_getElem h] at hk
      cases hk
    have : women0.length ≤ k := inv.lenW ▸ hlen
    rw [List.getElem?_eq_none this]
  | some w =>
    have hlt : k < s.gWomen.length := (List.getElem?_eq_some_iff.mp hk).1
    have hlt0 : k < women0.length := inv.lenW ▸ hlt
    have hw0 : women0[k]? = some (women0.get ⟨k, hlt0⟩) := by
      simp [List.getElem?_eq_getElem hlt0]
    rw [hw0]
    simp only [Option.map_some']
    exact congrArg some ((inv.womanPt k w _ hk hw0).1)

/-- Stall-freedom: on valid input a free man always has proposals left.
If he had proposed to everyone, every woman would be engaged, the
engaged-women count would equal `n`, and by the free/engaged balance no
man would be free. -/
theorem GSInv.free_made_lt {men0 : List Man} {women0 : List Woman}
    {s : SMState} (inv : GSInv men0 women0 s)
    (hv : ValidInput men0 women0) {i : Nat} {suitor : Man}
    (hget : s.gMen[i]? = some suitor) (hfree : suitor.is_free = true) :
    suitor.proposals_made < men0.length := by
  obtain ⟨hlen, hmnd, hwnd, hmen, hwomen⟩ := hv
  by_contra hcon
  push_neg at hcon
  have hiLt : i < s.gMen.length := (List.getElem?_eq_some_iff.mp hget).1
  have hiLt0 : i < men0.length := inv.lenM ▸ hiLt
  have hm0 : men0[i]? = some (men0.get ⟨i, hiLt0⟩) := by
    simp [List.getElem?_eq_getElem hiLt0]
  obtain ⟨hmid, hpref, hrem, hmade, hfp, _⟩ :=
    inv.manPt i suitor _ hget hm0
  have hmadeEq : suitor.proposals_made = men0.length :=
    Nat.le_antisymm hmade hcon
  have hprefPerm : suitor.pref_list.Perm (women0.map Woman.wid) := by
    rw [hpref]
    exact (hmen _ (List.getElem?_mem hm0)).2
  -- every woman is engaged
  have hAllEngaged : ∀ (jx : Nat) (wx : Woman), s.gWomen[jx]? = some wx →
      wx.is_free = false := by
    intro jx wx hwx
    have hjLt : jx < s.gWomen.length := (List.getElem?_eq_some_iff.mp hwx).1
    have hjLt0 : jx < women0.length := inv.lenW ▸ hjLt
    have hw0 : women0[jx]? = some (women0.get ⟨jx, hjLt0⟩) := by
      simp [List.getElem?_eq_getElem hjLt0]
    have hwidEq : wx.wid = (women0.get ⟨jx, hjLt0⟩).wid :=
      (inv.womanPt jx wx _ hwx hw0).1
    have hwmem : wx.wid ∈ women0.map Woman.wid := by
      rw [hwidEq]
      exact List.mem_map_of_mem Woman.wid (women0.get_mem jx hjLt0)
    have hmemPref : wx.wid ∈ suitor.pref_list := hprefPerm.mem_iff.mpr hwmem
    have hkLt : listIndex suitor.pref_list wx.wid < suitor.pref_list.length :=
      listIndex_lt_length hmemPref
    have hkLtMade : listIndex suitor.pref_list wx.wid
        < suitor.proposals_made := by
      rw [hmadeEq]
      calc listIndex suitor.pref_list wx.wid < suitor.pref_list.length :=
            hkLt
        _ = (women0.map Woman.wid).length := hprefPerm.length_eq
        _ = women0.length := by simp
        _ = men0.length := hlen.symm
    obtain ⟨j', w', hw', hwid', hfree', _⟩ :=
      inv.hist i suitor _ wx.wid hget hkLtMade (getElem?_listIndex hmemPref)
    -- the woman with that wid is unique, so w' is wx
    by_cases hjj : j' = jx
    · subst hjj
      rw [hw'] at hwx
      obtain rfl : w' = wx := Option.some.inj hwx
      exact hfree'
    · exfalso
      have hwnodG : (s.gWomen.map Woman.wid).Nodup := by
        rw [inv.gWomen_wids]
        exact hwnd
      exact (nodup_map_getElem?_ne Woman.wid s.gWomen hwnodG hw' hwx hjj)
        hwid'
  -- hence the engaged-women count is full
  have hWCount : s.gWomen.countP (fun w => !w.is_free) = men0.length := by
    have : s.gWomen.countP (fun w => !w.is_free) = s.gWomen.length := by
      rw [List.countP_eq_length]
      intro w hw
      obtain ⟨jx, hjx⟩ := List.mem_iff_getElem?.mp hw
      simp [hAllEngaged jx w hjx]
    rw [this, inv.lenW, hlen]
  have hMCount : s.gMen.countP (fun m => m.is_free) = 0 := by
    have := inv.freeBal
    omega
  rw [List.countP_eq_zero] at hMCount
  have := hMCount suitor (List.getElem?_mem hget)
  simp [hfree] at this

/-! ### Invariant preservation, case by case -/

theorem GSInv_reject {men0 : List Man} {women0 : List Woman} {s : SMState}
    (hv : ValidInput men0 women0) (inv : GSInv men0 women0 s)
    {i j : Nat} {suitor m0 : Man} {suitress w0 : Woman}
    {wid : Nat} {rest : List Nat} {oldRank : Nat}
    (hget : s.gMen[i]? = some suitor)
    (hm0 : men0[i]? = some m0)
    (hsf : suitor.is_free = true)
    (hmadelt : suitor.proposals_made < men0.length)
    (hwid : m0.pref_list[suitor.proposals_made]? = some wid)
    (hrest : rest = m0.pref_list.drop (suitor.proposals_made + 1))
    (hj : s.gWomen[j]? = some suitress)
    (hw0 : women0[j]? = some w0)
    (hwwid : suitress.wid = wid)
    (hwf : suitress.is_free = false)
    (hwr : suitress.partner_rank = some oldRank)
    (hworse : ¬ listIndex suitress.pref_list suitor.mid < oldRank) :
    GSInv men0 women0 { s with
      gMen := s.gMen.set i (suitor.propose rest),
      gWomen := s.gWomen.set j suitress.bump,
      freeMen := s.freeMen,
      matching_status := dictSet s.matching_status suitor.mid
        ⟨suitor.partner, suitor.is_free, suitor.proposals_made + 1⟩ } := by
  obtain ⟨hlen, hmnd, hwnd, hmen, hwomen⟩ := hv
  have hiLt : i < s.gMen.length := (List.getElem?_eq_some_iff.mp hget).1
  have hjLt : j < s.gWomen.length := (List.getElem?_eq_some_iff.mp hj).1
  obtain ⟨hsmid, hspref, hsrem, hsmade, hsfp, _⟩ :=
    inv.manPt i suitor m0 hget hm0
  obtain ⟨hwwid0, hwpref, hwfp, hwe, hwpr⟩ :=
    inv.womanPt j suitress w0 hj hw0
  have hmidsG : (s.gMen.map Man.mid).Nodup := by
    rw [inv.gMen_mids]
    exact hmnd
  refine ⟨?_, ?_, inv.hApp, inv.hWids, ?_, ?_, ?_, ?_, ?_, ?_, ?_, ?_, ?_⟩
  · simp [inv.lenM]
  · simp [inv.lenW]
  · -- manPt
    intro i' m' m0' hm' hm0'
    by_cases hii : i' = i
    · subst hii
      rw [List.getElem?_set_self hiLt] at hm'
      obtain rfl : suitor.propose rest = m' := Option.some.inj hm'
      rw [hm0] at hm0'
      obtain rfl : m0 = m0' := Option.some.inj hm0'
      refine ⟨hsmid, hspref, ?_, ?_, ?_, ?_⟩
      · simpa [Man.propose] using hrest
      · simpa [Man.propose] using hmadelt
      · intro _
        simpa [Man.propose] using hsfp hsf
      · intro hff
        rw [show (suitor.propose rest).is_free = suitor.is_free from rfl,
          hsf] at hff
        cases hff
    · rw [List.getElem?_set_ne (fun h => hii h.symm)] at hm'
      exact inv.manPt i' m' m0' hm' hm0'
  · -- womanPt
    intro j' w' w0' hw' hw0'
    by_cases hjj : j' = j
    · subst hjj
      rw [List.getElem?_set_self hjLt] at hw'
      obtain rfl : suitress.bump = w' := Option.some.inj hw'
      rw [hw0] at hw0'
      obtain rfl : w0 = w0' := Option.some.inj hw0'
      exact ⟨hwwid0, hwpref, fun hfree => hwfp hfree,
        fun hfree => hwe hfree, fun mid hmid => hwpr mid hmid⟩
    · rw [List.getElem?_set_ne (fun h => hjj h.symm)] at hw'
      exact inv.womanPt j' w' w0' hw' hw0'
  · -- sym1
    intro i' m' hm' hfree'
    by_cases hii : i' = i
    · subst hii
      rw [List.getElem?_set_self hiLt] at hm'
      obtain rfl : suitor.propose rest = m' := Option.some.inj hm'
      rw [show (suitor.propose rest).is_free = suitor.is_free from rfl,
        hsf] at hfree'
      cases hfree'
    · rw [List.getElem?_set_ne (fun h => hii h.symm)] at hm'
      obtain ⟨j', w, hw, hp, hwp⟩ := inv.sym1 i' m' hm' hfree'
      by_cases hjj : j' = j
      · rw [hjj] at hw
        obtain rfl : suitress = w := Option.some.inj (hj.symm.trans hw)
        exact ⟨j, suitress.bump, by rw [List.getElem?_set_self hjLt],
          hp, hwp⟩
      · exact ⟨j', w,
          by rw [List.getElem?_set_ne (fun h => hjj h.symm)]; exact hw,
          hp, hwp⟩
  · -- sym2
    intro j' w' mid' hw' hp'
    have hTrans : ∃ wOld, s.gWomen[j']? = some wOld ∧
        wOld.partner = some mid' ∧ wOld.wid = w'.wid := by
      by_cases hjj : j' = j
      · rw [hjj] at hw'
        rw [List.getElem?_set_self hjLt] at hw'
        obtain rfl : suitress.bump = w' := Option.some.inj hw'
        exact ⟨suitress, by rw [hjj]; exact hj, hp', rfl⟩
      · rw [List.getElem?_set_ne (fun h => hjj h.symm)] at hw'
        exact ⟨w', hw', hp', rfl⟩
    obtain ⟨wOld, hwOld, hpOld, hwidOld⟩ := hTrans
    obtain ⟨i'', m'', hm'', hmid'', hfree'', hp''⟩ :=
      inv.sym2 j' wOld mid' hwOld hpOld
    have hii : i'' ≠ i := by
      intro h
      subst h
      obtain rfl : suitor = m'' := Option.some.inj (hget.symm.trans hm'')
      rw [hsf] at hfree''
      cases hfree''
    refine ⟨i'', m'', ?_, hmid'', hfree'', ?_⟩
    · rw [List.getElem?_set_ne (Ne.symm hii)]
      exact hm''
    · rw [hp'', hwidOld]
  · -- hist
    intro i' m' k wid' hm' hk hpk
    by_cases hii : i' = i
    · rw [hii] at hm'
      rw [List.getElem?_set_self hiLt] at hm'
      obtain rfl : suitor.propose rest = m' := Option.some.inj hm'
      have hkle : k < suitor.proposals_made + 1 := hk
      rcases Nat.lt_or_ge k suitor.proposals_made with hklt | hkge
      · obtain ⟨j', w, hw, hwwid', hengaged, r, hr, hrle⟩ :=
          inv.hist i suitor k wid' hget hklt
            (by simpa [Man.propose] using hpk)
        by_cases hjj : j' = j
        · rw [hjj] at hw
          obtain rfl : suitress = w := Option.some.inj (hj.symm.trans hw)
          exact ⟨j, suitress.bump, by rw [List.getElem?_set_self hjLt],
            hwwid', hwf, r, hr, hrle⟩
        · exact ⟨j', w,
            by rw [List.getElem?_set_ne (fun h => hjj h.symm)]; exact hw,
            hwwid', hengaged, r, hr, hrle⟩
      · have hkeq : k = suitor.proposals_made :=
          Nat.le_antisymm (Nat.lt_succ_iff.mp hkle) hkge
        subst hkeq
        rw [show (suitor.propose rest).pref_list = suitor.pref_list
          from rfl, hspref] at hpk
        rw [hwid] at hpk
        obtain rfl : wid = wid' := Option.some.inj hpk
        refine ⟨j, suitress.bump, by rw [List.getElem?_set_self hjLt],
          hwwid, hwf, oldRank, hwr, ?_⟩
        exact Nat.le_of_not_lt hworse
    · rw [List.getElem?_set_ne (fun h => hii h.symm)] at hm'
      obtain ⟨j', w, hw, hwwid', hengaged, r, hr, hrle⟩ :=
        inv.hist i' m' k wid' hm' hk hpk
      by_cases hjj : j' = j
      · rw [hjj] at hw
        obtain rfl : suitress = w := Option.some.inj (hj.symm.trans hw)
        exact ⟨j, suitress.bump, by rw [List.getElem?_set_self hjLt],
          hwwid', hwf, r, hr, hrle⟩
      · exact ⟨j', w,
          by rw [List.getElem?_set_ne (fun h => hjj h.symm)]; exact hw,
          hwwid', hengaged, r, hr, hrle⟩
  · -- freeCnt
    have heq : (s.gMen.set i (suitor.propose rest)).countP
        (fun m => m.is_free) = s.gMen.countP (fun m => m.is_free) :=
      countP_set_congr _ s.gMen i suitor (suitor.propose rest) hget rfl
    show s.freeMen = _
    rw [heq]
    exact inv.freeCnt
  · -- freeBal
    have heq1 : (s.gMen.set i (suitor.propose rest)).countP
        (fun m => m.is_free) = s.gMen.countP (fun m => m.is_free) :=
      countP_set_congr _ s.gMen i suitor (suitor.propose rest) hget rfl
    have heq2 : (s.gWomen.set j suitress.bump).countP
        (fun w => !w.is_free) = s.gWomen.countP (fun w => !w.is_free) :=
      countP_set_congr _ s.gWomen j suitress suitress.bump hj rfl
    show _ + _ = men0.length
    rw [heq1, heq2]
    exact inv.freeBal
  · -- statusKeys
    show (dictSet s.matching_status suitor.mid _).map Prod.fst
      = men0.map Man.mid
    rw [dictSet_keys_of_mem]
    · exact inv.statusKeys
    · rw [inv.statusKeys, hsmid]
      exact List.mem_map_of_mem Man.mid (List.getElem?_mem hm0)
  · -- statusAcc
    intro i' m' hm' hfree'
    by_cases hii : i' = i
    · subst hii
      rw [List.getElem?_set_self hiLt] at hm'
      obtain rfl : suitor.propose rest = m' := Option.some.inj hm'
      rw [show (suitor.propose rest).is_free = suitor.is_free from rfl,
        hsf] at hfree'
      cases hfree'
    · rw [List.getElem?_set_ne (fun h => hii h.symm)] at hm'
      have hmidne : m'.mid ≠ suitor.mid :=
        nodup_map_getElem?_ne Man.mid s.gMen hmidsG hm' hget hii
      show dictGet? (dictSet s.matching_status suitor.mid _) m'.mid = _
      rw [dictGet?_dictSet_ne _ _ _ _ hmidne]
      exact inv.statusAcc i' m' hm' hfree'

theorem GSInv_accept_free {men0 : List Man} {women0 : List Woman}
    {s : SMState}
    (hv : ValidInput men0 women0) (inv : GSInv men0 women0 s)
    {i j : Nat} {suitor m0 : Man} {suitress w0 : Woman}
    {wid : Nat} {rest : List Nat}
    (hget : s.gMen[i]? = some suitor)
    (hm0 : men0[i]? = some m0)
    (hsf : suitor.is_free = true)
    (hmadelt : suitor.proposals_made < men0.length)
    (hwid : m0.pref_list[suitor.proposals_made]? = some wid)
    (hrest : rest = m0.pref_list.drop (suitor.proposals_made + 1))
    (hj : s.gWomen[j]? = some suitress)
    (hw0 : women0[j]? = some w0)
    (hwwid : suitress.wid = wid)
    (hwf : suitress.is_free = true) :
    GSInv men0 women0 { s with
      gMen := s.gMen.set i
        ((suitor.propose rest).updatePartner (suitress.accept suitor.mid)),
      gWomen := s.gWomen.set j (suitress.accept suitor.mid),
      freeMen := s.freeMen - 1,
      matching_status := dictSet s.matching_status suitor.mid
        ⟨some suitress.wid, false, suitor.proposals_made + 1⟩ } := by
  obtain ⟨hlen, hmnd, hwnd, hmen, hwomen⟩ := hv
  have hiLt : i < s.gMen.length := (List.getElem?_eq_some_iff.mp hget).1
  have hjLt : j < s.gWomen.length := (List.getElem?_eq_some_iff.mp hj).1
  obtain ⟨hsmid, hspref, hsrem, hsmade, hsfp, _⟩ :=
    inv.manPt i suitor m0 hget hm0
  obtain ⟨hwwid0, hwpref, hwfp, hwe, hwpr⟩ :=
    inv.womanPt j suitress w0 hj hw0
  have hmidsG : (s.gMen.map Man.mid).Nodup := by
    rw [inv.gMen_mids]
    exact hmnd
  have hspn : suitress.partner = none := hwfp hwf
  refine ⟨?_, ?_, inv.hApp, inv.hWids, ?_, ?_, ?_, ?_, ?_, ?_, ?_, ?_, ?_⟩
  · simp [inv.lenM]
  · simp [inv.lenW]
  · -- manPt
    intro i' m' m0' hm' hm0'
    by_cases hii : i' = i
    · rw [hii] at hm'
      rw [List.getElem?_set_self hiLt] at hm'
      obtain rfl : (suitor.propose rest).updatePartner
          (suitress.accept suitor.mid) = m' := Option.some.inj hm'
      rw [hii, hm0] at hm0'
      obtain rfl : m0 = m0' := Option.some.inj hm0'
      refine ⟨hsmid, hspref, ?_, ?_, ?_, ?_⟩
      · simpa [Man.propose, Man.updatePartner] using hrest
      · simpa [Man.propose, Man.updatePartner] using hmadelt
      · intro hff
        simp [Man.propose, Man.updatePartner] at hff
      · intro _
        refine ⟨suitor.proposals_made, wid, rfl, hwid, ?_⟩
        show some suitress.wid = some wid
        rw [hwwid]
    · rw [List.getElem?_set_ne (fun h => hii h.symm)] at hm'
      exact inv.manPt i' m' m0' hm' hm0'
  · -- womanPt
    intro j' w' w0' hw' hw0'
    by_cases hjj : j' = j
    · rw [hjj] at hw'
      rw [List.getElem?_set_self hjLt] at hw'
      obtain rfl : suitress.accept suitor.mid = w' := Option.some.inj hw'
      rw [hjj, hw0] at hw0'
      obtain rfl : w0 = w0' := Option.some.inj hw0'
      refine ⟨hwwid0, hwpref, ?_, ?_, ?_⟩
      · intro hff
        simp [Woman.accept] at hff
      · intro _
        exact ⟨suitor.mid, rfl⟩
      · intro mid hmid
        have : suitor.mid = mid := by
          have := Option.some.inj hmid
          simpa [Woman.accept] using this
        subst this
        refine ⟨rfl, ?_⟩
        show some (listIndex suitress.pref_list suitor.mid) = _
        rw [hwpref]
    · rw [List.getElem?_set_ne (fun h => hjj h.symm)] at hw'
      exact inv.womanPt j' w' w0' hw' hw0'
  · -- sym1
    intro i' m' hm' hfree'
    by_cases hii : i' = i
    · rw [hii] at hm'
      rw [List.getElem?_set_self hiLt] at hm'
      obtain rfl : (suitor.propose rest).updatePartner
          (suitress.accept suitor.mid) = m' := Option.some.inj hm'
      exact ⟨j, suitress.accept suitor.mid,
        by rw [List.getElem?_set_self hjLt], rfl, rfl⟩
    · rw [List.getElem?_set_ne (fun h => hii h.symm)] at hm'
      obtain ⟨j', w, hw, hp, hwp⟩ := inv.sym1 i' m' hm' hfree'
      have hjj : j' ≠ j := by
        intro h
        rw [h] at hw
        obtain rfl : suitress = w := Option.some.inj (hj.symm.trans hw)
        rw [hspn] at hwp
        cases hwp
      exact ⟨j', w,
        by rw [List.getElem?_set_ne (fun h => hjj h.symm)]; exact hw,
        hp, hwp⟩
  · -- sym2
    intro j' w' mid' hw' hp'
    by_cases hjj : j' = j
    · rw [hjj] at hw'
      rw [List.getElem?_set_self hjLt] at hw'
      obtain rfl : suitress.accept suitor.mid = w' := Option.some.inj hw'
      have hmid' : suitor.mid = mid' := by
        have := Option.some.inj hp'
        simpa [Woman.accept] using this
      subst hmid'
      exact ⟨i, (suitor.propose rest).updatePartner
          (suitress.accept suitor.mid),
        by rw [List.getElem?_set_self hiLt], rfl, rfl, rfl⟩
    · rw [List.getElem?_set_ne (fun h => hjj h.symm)] at hw'
      obtain ⟨i'', m'', hm'', hmid'', hfree'', hp''⟩ :=
        inv.sym2 j' w' mid' hw' hp'
      have hii : i'' ≠ i := by
        intro h
        rw [h] at hm''
        obtain rfl : suitor = m'' := Option.some.inj (hget.symm.trans hm'')
        rw [hsf] at hfree''
        cases hfree''
      exact ⟨i'', m'',
        by rw [List.getElem?_set_ne (Ne.symm hii)]; exact hm'',
        hmid'', hfree'', hp''⟩
  · -- hist
    intro i' m' k wid' hm' hk hpk
    by_cases hii : i' = i
    · rw [hii] at hm'
      rw [List.getElem?_set_self hiLt] at hm'
      obtain rfl : (suitor.propose rest).updatePartner
          (suitress.accept suitor.mid) = m' := Option.some.inj hm'
      have hkle : k < suitor.proposals_made + 1 := hk
      rcases Nat.lt_or_ge k suitor.proposals_made with hklt | hkge
      · obtain ⟨j', w, hw, hwwid', hengaged, r, hr, hrle⟩ :=
          inv.hist i suitor k wid' hget hklt
            (by simpa [Man.propose, Man.updatePartner] using hpk)
        have hjj : j' ≠ j := by
          intro h
          rw [h] at hw
          obtain rfl : suitress = w := Option.some.inj (hj.symm.trans hw)
          rw [hwf] at hengaged
          cases hengaged
        exact ⟨j', w,
          by rw [List.getElem?_set_ne (fun h => hjj h.symm)]; exact hw,
          hwwid', hengaged, r, hr, hrle⟩
      · have hkeq : k = suitor.proposals_made :=
          Nat.le_antisymm (Nat.lt_succ_iff.mp hkle) hkge
        subst hkeq
        rw [show ((suitor.propose rest).updatePartner
            (suitress.accept suitor.mid)).pref_list = suitor.pref_list
          from rfl, hspref] at hpk
        rw [hwid] at hpk
        obtain rfl : wid = wid' := Option.some.inj hpk
        refine ⟨j, suitress.accept suitor.mid,
          by rw [List.getElem?_set_self hjLt], hwwid, rfl,
          listIndex suitress.pref_list suitor.mid, rfl, ?_⟩
        exact Nat.le_refl _
    · rw [List.getElem?_set_ne (fun h => hii h.symm)] at hm'
      obtain ⟨j', w, hw, hwwid', hengaged, r, hr, hrle⟩ :=
        inv.hist i' m' k wid' hm' hk hpk
      have hjj : j' ≠ j := by
        intro h
        rw [h] at hw
        obtain rfl : suitress = w := Option.some.inj (hj.symm.trans hw)
        rw [hwf] at hengaged
        cases hengaged
      exact ⟨j', w,
        by rw [List.getElem?_set_ne (fun h => hjj h.symm)]; exact hw,
        hwwid', hengaged, r, hr, hrle⟩
  · -- freeCnt
    have hc := countP_set_tf (fun m => m.is_free) s.gMen i suitor
      ((suitor.propose rest).updatePartner (suitress.accept suitor.mid))
      hget hsf rfl
    show s.freeMen - 1 = ((s.gMen.set i ((suitor.propose rest).updatePartner
      (suitress.accept suitor.mid))).countP (fun m => m.is_free) : Int)
    rw [inv.freeCnt]
    omega
  · -- freeBal
    have hc1 := countP_set_tf (fun m => m.is_free) s.gMen i suitor
      ((suitor.propose rest).updatePartner (suitress.accept suitor.mid))
      hget hsf rfl
    have hc2 := countP_set_ft (fun w : Woman => !w.is_free) s.gWomen j
      suitress (suitress.accept suitor.mid) hj (by simp [hwf]) (by rfl)
    have hbal := inv.freeBal
    show (s.gMen.set i ((suitor.propose rest).updatePartner
        (suitress.accept suitor.mid))).countP (fun m => m.is_free)
      + (s.gWomen.set j (suitress.accept suitor.mid)).countP
          (fun w => !w.is_free) = men0.length
    omega
  · -- statusKeys
    show (dictSet s.matching_status suitor.mid _).map Prod.fst
      = men0.map Man.mid
    rw [dictSet_keys_of_mem]
    · exact inv.statusKeys
    · rw [inv.statusKeys, hsmid]
      exact List.mem_map_of_mem Man.mid (List.getElem?_mem hm0)
  · -- statusAcc
    intro i' m' hm' hfree'
    by_cases hii : i' = i
    · rw [hii] at hm'
      rw [List.getElem?_set_self hiLt] at hm'
      obtain rfl : (suitor.propose rest).updatePartner
          (suitress.accept suitor.mid) = m' := Option.some.inj hm'
      show dictGet? (dictSet s.matching_status suitor.mid _) _ = _
      rw [show ((suitor.propose rest).updatePartner
          (suitress.accept suitor.mid)).mid = suitor.mid from rfl]
      rw [dictGet?_dictSet_self]
      rfl
    · rw [List.getElem?_set_ne (fun h => hii h.symm)] at hm'
      have hmidne : m'.mid ≠ suitor.mid :=
        nodup_map_getElem?_ne Man.mid s.gMen hmidsG hm' hget hii
      show dictGet? (dictSet s.matching_status suitor.mid _) m'.mid = _
      rw [dictGet?_dictSet_ne _ _ _ _ hmidne]
      exact inv.statusAcc i' m' hm' hfree'

theorem GSInv_accept_displace {men0 : List Man} {women0 : List Woman}
    {s : SMState}
    (hv : ValidInput men0 women0) (inv : GSInv men0 women0 s)
    {i j : Nat} {suitor m0 : Man} {suitress w0 : Woman}
    {wid : Nat} {rest : List Nat} {oldMid oldRank : Nat}
    (hget : s.gMen[i]? = some suitor)
    (hm0 : men0[i]? = some m0)
    (hsf : suitor.is_free = true)
    (hmadelt : suitor.proposals_made < men0.length)
    (hwid : m0.pref_list[suitor.proposals_made]? = some wid)
    (hrest : rest = m0.pref_list.drop (suitor.proposals_made + 1))
    (hj : s.gWomen[j]? = some suitress)
    (hw0 : women0[j]? = some w0)
    (hwwid : suitress.wid = wid)
    (hwf : suitress.is_free = false)
    (hwp : suitress.partner = some oldMid)
    (hwr : suitress.partner_rank = some oldRank)
    (hbetter : listIndex suitress.pref_list suitor.mid < oldRank) :
    GSInv men0 women0 { s with
      gMen := (s.gMen.map (fun m =>
          if (some oldMid : Option Nat) = some m.mid then
            disengage m else m)).set i
        ((suitor.propose rest).updatePartner (suitress.accept suitor.mid)),
      gWomen := s.gWomen.set j (suitress.accept suitor.mid),
      freeMen := s.freeMen,
      matching_status := dictSet s.matching_status suitor.mid
        ⟨some suitress.wid, false, suitor.proposals_made + 1⟩ } := by
  obtain ⟨hlen, hmnd, hwnd, hmen, hwomen⟩ := hv
  have hiLt : i < s.gMen.length := (List.getElem?_eq_some_iff.mp hget).1
  have hjLt : j < s.gWomen.length := (List.getElem?_eq_some_iff.mp hj).1
  obtain ⟨hsmid, hspref, hsrem, hsmade, hsfp, _⟩ :=
    inv.manPt i suitor m0 hget hm0
  obtain ⟨hwwid0, hwpref, hwfp, hwe, hwpr⟩ :=
    inv.womanPt j suitress w0 hj hw0
  have hmidsG : (s.gMen.map Man.mid).Nodup := by
    rw [inv.gMen_mids]
    exact hmnd
  have hwidsG : (s.gWomen.map Woman.wid).Nodup := by
    rw [inv.gWomen_wids]
    exact hwnd
  -- the displaced man
  obtain ⟨iD, dMan, hmD, hmidD, hfD, hpD⟩ := inv.sym2 j suitress oldMid hj hwp
  have hiDLt : iD < s.gMen.length := (List.getElem?_eq_some_iff.mp hmD).1
  have hiDne : iD ≠ i := by
    intro h
    rw [h] at hmD
    obtain rfl : suitor = dMan := Option.some.inj (hget.symm.trans hmD)
    rw [hsf] at hfD
    cases hfD
  have hmapEq : s.gMen.map (fun m =>
      if (some oldMid : Option Nat) = some m.mid then disengage m else m)
      = s.gMen.set iD (disengage dMan) := by
    rw [← hmidD]
    exact map_disengage_eq_set s.gMen iD dMan hmidsG hmD
  rw [hmapEq]
  have hiLt2 : i < (s.gMen.set iD (disengage dMan)).length := by
    simpa using hiLt
  have hmidI : (s.gMen.set iD (disengage dMan))[i]? = some suitor := by
    rw [List.getElem?_set_ne hiDne]
    exact hget
  have hAtI : ((s.gMen.set iD (disengage dMan)).set i
      ((suitor.propose rest).updatePartner (suitress.accept suitor.mid)))[i]?
      = some ((suitor.propose rest).updatePartner
        (suitress.accept suitor.mid)) :=
    List.getElem?_set_self hiLt2
  have hAtD : ((s.gMen.set iD (disengage dMan)).set i
      ((suitor.propose rest).updatePartner (suitress.accept suitor.mid)))[iD]?
      = some (disengage dMan) := by
    rw [List.getElem?_set_ne (Ne.symm hiDne)]
    exact List.getElem?_set_self hiDLt
  have hAt : ∀ i', i' ≠ i → i' ≠ iD →
      ((s.gMen.set iD (disengage dMan)).set i
        ((suitor.propose rest).updatePartner
          (suitress.accept suitor.mid)))[i']? = s.gMen[i']? := by
    intro i' h1 h2
    rw [List.getElem?_set_ne (Ne.symm h1), List.getElem?_set_ne (Ne.symm h2)]
  have hm0D : men0[iD]? = some (men0.get ⟨iD, inv.lenM ▸ hiDLt⟩) := by
    simp [List.getElem?_eq_getElem (inv.lenM ▸ hiDLt)]
  obtain ⟨hdmid, hdpref, hdrem, hdmade, _, hdeng⟩ :=
    inv.manPt iD dMan _ hmD hm0D
  refine ⟨?_, ?_, inv.hApp, inv.hWids, ?_, ?_, ?_, ?_, ?_, ?_, ?_, ?_, ?_⟩
  · simp [inv.lenM]
  · simp [inv.lenW]
  · -- manPt
    intro i' m' m0' hm' hm0'
    by_cases hii : i' = i
    · rw [hii] at hm'
      rw [hAtI] at hm'
      obtain rfl : (suitor.propose rest).updatePartner
          (suitress.accept suitor.mid) = m' := Option.some.inj hm'
      rw [hii, hm0] at hm0'
      obtain rfl : m0 = m0' := Option.some.inj hm0'
      refine ⟨hsmid, hspref, ?_, ?_, ?_, ?_⟩
      · simpa [Man.propose, Man.updatePartner] using hrest
      · simpa [Man.propose, Man.updatePartner] using hmadelt
      · intro hff
        simp [Man.propose, Man.updatePartner] at hff
      · intro _
        refine ⟨suitor.proposals_made, wid, rfl, hwid, ?_⟩
        show some suitress.wid = some wid
        rw [hwwid]
    · by_cases hiiD : i' = iD
      · rw [hiiD] at hm'
        rw [hAtD] at hm'
        obtain rfl : disengage dMan = m' := Option.some.inj hm'
        rw [hiiD, hm0D] at hm0'
        obtain rfl : men0.get ⟨iD, inv.lenM ▸ hiDLt⟩ = m0' :=
          Option.some.inj hm0'
        refine ⟨hdmid, hdpref, hdrem, hdmade, fun _ => rfl, ?_⟩
        intro hff
        simp [disengage] at hff
      · rw [hAt i' hii hiiD] at hm'
        exact inv.manPt i' m' m0' hm' hm0'
  · -- womanPt
    intro j' w' w0' hw' hw0'
    by_cases hjj : j' = j
    · rw [hjj] at hw'
      rw [List.getElem?_set_self hjLt] at hw'
      obtain rfl : suitress.accept suitor.mid = w' := Option.some.inj hw'
      rw [hjj, hw0] at hw0'
      obtain rfl : w0 = w0' := Option.some.inj hw0'
      refine ⟨hwwid0, hwpref, ?_, ?_, ?_⟩
      · intro hff
        simp [Woman.accept] at hff
      · intro _
        exact ⟨suitor.mid, rfl⟩
      · intro mid hmid
        have : suitor.mid = mid := by
          have := Option.some.inj hmid
          simpa [Woman.accept] using this
        subst this
        refine ⟨rfl, ?_⟩
        show some (listIndex suitress.pref_list suitor.mid) = _
        rw [hwpref]
    · rw [List.getElem?_set_ne (fun h => hjj h.symm)] at hw'
      exact inv.womanPt j' w' w0' hw' hw0'
  · -- sym1
    intro i' m' hm' hfree'
    by_cases hii : i' = i
    · rw [hii] at hm'
      rw [hAtI] at hm'
      obtain rfl : (suitor.propose rest).updatePartner
          (suitress.accept suitor.mid) = m' := Option.some.inj hm'
      exact ⟨j, suitress.accept suitor.mid,
        by rw [List.getElem?_set_self hjLt], rfl, rfl⟩
    · by_cases hiiD : i' = iD
      · rw [hiiD] at hm'
        rw [hAtD] at hm'
        obtain rfl : disengage dMan = m' := Option.some.inj hm'
        simp [disengage] at hfree'
      · rw [hAt i' hii hiiD] at hm'
        obtain ⟨j', w, hw, hp, hwp2⟩ := inv.sym1 i' m' hm' hfree'
        have hjj : j' ≠ j := by
          intro h
          rw [h] at hw
          obtain rfl : suitress = w := Option.some.inj (hj.symm.trans hw)
          have : oldMid = m'.mid := Option.some.inj (hwp.symm.trans hwp2)
          have hmidne : m'.mid ≠ dMan.mid :=
            nodup_map_getElem?_ne Man.mid s.gMen hmidsG hm' hmD hiiD
          exact hmidne (this ▸ hmidD.symm)
        exact ⟨j', w,
          by rw [List.getElem?_set_ne (fun h => hjj h.symm)]; exact hw,
          hp, hwp2⟩
  · -- sym2
    intro j' w' mid' hw' hp'
    by_cases hjj : j' = j
    · rw [hjj] at hw'
      rw [List.getElem?_set_self hjLt] at hw'
      obtain rfl : suitress.accept suitor.mid = w' := Option.some.inj hw'
      have hmid' : suitor.mid = mid' := by
        have := Option.some.inj hp'
        simpa [Woman.accept] using this
      subst hmid'
      exact ⟨i, (suitor.propose rest).updatePartner
          (suitress.accept suitor.mid), hAtI, rfl, rfl, rfl⟩
    · rw [List.getElem?_set_ne (fun h => hjj h.symm)] at hw'
      obtain ⟨i'', m'', hm'', hmid'', hfree'', hp''⟩ :=
        inv.sym2 j' w' mid' hw' hp'
      have hii : i'' ≠ i := by
        intro h
        rw [h] at hm''
        obtain rfl : suitor = m'' := Option.some.inj (hget.symm.trans hm'')
        rw [hsf] at hfree''
        cases hfree''
      have hiiD : i'' ≠ iD := by
        intro h
        rw [h] at hm''
        obtain rfl : dMan = m'' := Option.some.inj (hmD.symm.trans hm'')
        have hwidEq : suitress.wid = w'.wid :=
          Option.some.inj (hpD.symm.trans hp'')
        exact (nodup_map_getElem?_ne Woman.wid s.gWomen hwidsG hj hw'
          (fun h2 => hjj (h2.symm))) hwidEq
      exact ⟨i'', m'', by rw [hAt i'' hii hiiD]; exact hm'',
        hmid'', hfree'', hp''⟩
  · -- hist
    intro i' m' k wid' hm' hk hpk
    have hrk : listIndex suitress.pref_list suitor.mid < oldRank := hbetter
    -- uniform transfer of an old hist conclusion to the new woman list
    have hWT : ∀ (x : Nat) (j' : Nat) (w : Woman),
        s.gWomen[j']? = some w → w.is_free = false →
        (∃ r, w.partner_rank = some r ∧ r ≤ listIndex w.pref_list x) →
        w.wid = wid' →
        ∃ (jN : Nat) (wN : Woman),
          (s.gWomen.set j (suitress.accept suitor.mid))[jN]? = some wN ∧
          wN.wid = wid' ∧ wN.is_free = false ∧
          ∃ r, wN.partner_rank = some r ∧ r ≤ listIndex wN.pref_list x := by
      intro x j' w hw hwfree ⟨r, hr, hrle⟩ hwidw
      by_cases hjj : j' = j
      · rw [hjj] at hw
        obtain rfl : suitress = w := Option.some.inj (hj.symm.trans hw)
        refine ⟨j, suitress.accept suitor.mid,
          by rw [List.getElem?_set_self hjLt], hwidw, rfl,
          listIndex suitress.pref_list suitor.mid, rfl, ?_⟩
        have hreq : r = oldRank := Option.some.inj (hr.symm.trans hwr)
        subst hreq
        exact Nat.le_trans (Nat.le_of_lt hbetter) hrle
      · exact ⟨j', w,
          by rw [List.getElem?_set_ne (fun h => hjj h.symm)]; exact hw,
          hwidw, hwfree, r, hr, hrle⟩
    by_cases hii : i' = i
    · rw [hii] at hm'
      rw [hAtI] at hm'
      obtain rfl : (suitor.propose rest).updatePartner
          (suitress.accept suitor.mid) = m' := Option.some.inj hm'
      have hkle : k < suitor.proposals_made + 1 := hk
      rcases Nat.lt_or_ge k suitor.proposals_made with hklt | hkge
      · obtain ⟨j', w, hw, hwwid', hengaged, r, hr, hrle⟩ :=
          inv.hist i suitor k wid' hget hklt
            (by simpa [Man.propose, Man.updatePartner] using hpk)
        exact hWT suitor.mid j' w hw hengaged ⟨r, hr, hrle⟩ hwwid'
      · have hkeq : k = suitor.proposals_made :=
          Nat.le_antisymm (Nat.lt_succ_iff.mp hkle) hkge
        subst hkeq
        rw [show ((suitor.propose rest).updatePartner
            (suitress.accept suitor.mid)).pref_list = suitor.pref_list
          from rfl, hspref] at hpk
        rw [hwid] at hpk
        obtain rfl : wid = wid' := Option.some.inj hpk
        refine ⟨j, suitress.accept suitor.mid,
          by rw [List.getElem?_set_self hjLt], hwwid, rfl,
          listIndex suitress.pref_list suitor.mid, rfl, Nat.le_refl _⟩
    · by_cases hiiD : i' = iD
      · rw [hiiD] at hm'
        rw [hAtD] at hm'
        obtain rfl : disengage dMan = m' := Option.some.inj hm'
        obtain ⟨j', w, hw, hwwid', hengaged, r, hr, hrle⟩ :=
          inv.hist iD dMan k wid' hmD hk (by simpa [disengage] using hpk)
        exact hWT dMan.mid j' w hw hengaged ⟨r, hr, hrle⟩ hwwid'
      · rw [hAt i' hii hiiD] at hm'
        obtain ⟨j', w, hw, hwwid', hengaged, r, hr, hrle⟩ :=
          inv.hist i' m' k wid' hm' hk hpk
        exact hWT m'.mid j' w hw hengaged ⟨r, hr, hrle⟩ hwwid'
  · -- freeCnt
    have hc1 := countP_set_ft (fun m : Man => m.is_free) s.gMen iD dMan
      (disengage dMan) hmD hfD (by rfl)
    have hc2 := countP_set_tf (fun m : Man => m.is_free)
      (s.gMen.set iD (disengage dMan)) i suitor
      ((suitor.propose rest).updatePartner (suitress.accept suitor.mid))
      hmidI hsf (by rfl)
    show s.freeMen = (((s.gMen.set iD (disengage dMan)).set i
      ((suitor.propose rest).updatePartner
        (suitress.accept suitor.mid))).countP (fun m => m.is_free) : Int)
    rw [inv.freeCnt]
    omega
  · -- freeBal
    have hc1 := countP_set_ft (fun m : Man => m.is_free) s.gMen iD dMan
      (disengage dMan) hmD hfD (by rfl)
    have hc2 := countP_set_tf (fun m : Man => m.is_free)
      (s.gMen.set iD (disengage dMan)) i suitor
      ((suitor.propose rest).updatePartner (suitress.accept suitor.mid))
      hmidI hsf (by rfl)
    have hc3 : (s.gWomen.set j (suitress.accept suitor.mid)).countP
        (fun w => !w.is_free) = s.gWomen.countP (fun w => !w.is_free) :=
      countP_set_congr _ s.gWomen j suitress (suitress.accept suitor.mid)
        hj (by simp [hwf, Woman.accept])
    have hbal := inv.freeBal
    show ((s.gMen.set iD (disengage dMan)).set i
      ((suitor.propose rest).updatePartner
        (suitress.accept suitor.mid))).countP (fun m => m.is_free)
      + (s.gWomen.set j (suitress.accept suitor.mid)).countP
          (fun w => !w.is_free) = men0.length
    omega
  · -- statusKeys
    show (dictSet s.matching_status suitor.mid _).map Prod.fst
      = men0.map Man.mid
    rw [dictSet_keys_of_mem]
    · exact inv.statusKeys
    · rw [inv.statusKeys, hsmid]
      exact List.mem_map_of_mem Man.mid (List.getElem?_mem hm0)
  · -- statusAcc
    intro i' m' hm' hfree'
    by_cases hii : i' = i
    · rw [hii] at hm'
      rw [hAtI] at hm'
      obtain rfl : (suitor.propose rest).updatePartner
          (suitress.accept suitor.mid) = m' := Option.some.inj hm'
      show dictGet? (dictSet s.matching_status suitor.mid _) _ = _
      rw [show ((suitor.propose rest).updatePartner
          (suitress.accept suitor.mid)).mid = suitor.mid from rfl]
      rw [dictGet?_dictSet_self]
      rfl
    · by_cases hiiD : i' = iD
      · rw [hiiD] at hm'
        rw [hAtD] at hm'
        obtain rfl : disengage dMan = m' := Option.some.inj hm'
        simp [disengage] at hfree'
      · rw [hAt i' hii hiiD] at hm'
        have hmidne : m'.mid ≠ suitor.mid :=
          nodup_map_getElem?_ne Man.mid s.gMen hmidsG hm' hget hii
        show dictGet? (dictSet s.matching_status suitor.mid _) m'.mid = _
        rw [dictGet?_dictSet_ne _ _ _ _ hmidne]
        exact inv.statusAcc i' m' hm' hfree'

/-- One loop iteration under the invariant: the step succeeds (no break,
no ran-out, no crash), preserves the invariant, and performs exactly one
proposal, decreasing the remaining-proposal measure by one. -/
theorem GSInv_step {men0 : List Man} {women0 : List Woman} {s : SMState}
    (hv : ValidInput men0 women0) (inv : GSInv men0 women0 s)
    (hfree : 0 < s.freeMen) :
    ∃ s', matchStep s = .cont s' ∧ GSInv men0 women0 s' ∧
      measureGS men0 s' + 1 = measureGS men0 s := by
  have hlen := hv.1
  have hmnd := hv.2.1
  have hwnd := hv.2.2.1
  have hmen := hv.2.2.2.1
  have hwomen := hv.2.2.2.2
  -- a free man exists, so the scan finds one
  have hpos : 0 < s.gMen.countP (fun m => m.is_free) := by
    have := inv.freeCnt
    omega
  obtain ⟨mfree, hmem, hmf⟩ := List.countP_pos_iff.mp hpos
  cases hidx : findFreeIdx s.gMen with
  | none =>
    exact absurd (findFreeIdx_none hidx mfree hmem) (by simp [hmf])
  | some i =>
  obtain ⟨suitor, hget, hsf⟩ := findFreeIdx_some hidx
  have hiLt : i < s.gMen.length := (List.getElem?_eq_some_iff.mp hget).1
  have hiLt0 : i < men0.length := inv.lenM ▸ hiLt
  obtain ⟨m0, hm0⟩ : ∃ m0, men0[i]? = some m0 :=
    ⟨men0[i], List.getElem?_eq_getElem hiLt0⟩
  obtain ⟨hsmid, hspref, hsrem, hsmade, _, _⟩ :=
    inv.manPt i suitor m0 hget hm0
  have hmadelt : suitor.proposals_made < men0.length :=
    inv.free_made_lt hv hget hsf
  have hlt : suitor.proposals_made < s.applicants := by
    rw [inv.hApp]
    exact hmadelt
  -- the next candidate
  have hperm : m0.pref_list.Perm (women0.map Woman.wid) :=
    (hmen m0 (List.getElem?_mem hm0)).2
  have hpreflen : m0.pref_list.length = men0.length := by
    rw [hperm.length_eq]
    simp [hlen]
  have hmadePref : suitor.proposals_made < m0.pref_list.length := by
    rw [hpreflen]
    exact hmadelt
  obtain ⟨wid, hwid⟩ : ∃ wid,
      m0.pref_list[suitor.proposals_made]? = some wid :=
    ⟨m0.pref_list[suitor.proposals_made], List.getElem?_eq_getElem hmadePref⟩
  have hdrop : m0.pref_list.drop suitor.proposals_made
      = wid :: m0.pref_list.drop (suitor.proposals_made + 1) := by
    rw [List.drop_eq_getElem_cons hmadePref]
    congr 1
    have := List.getElem?_eq_getElem hmadePref
    rw [this] at hwid
    exact Option.some.inj hwid
  have hrem : suitor.remaining_list
      = wid :: m0.pref_list.drop (suitor.proposals_made + 1) := by
    rw [hsrem, hdrop]
  -- locate the woman
  have hmemw : wid ∈ women0.map Woman.wid :=
    hperm.mem_iff.mp (List.getElem?_mem hwid)
  have htake : s.womenWidsCtor.take s.applicants = women0.map Woman.wid := by
    rw [inv.hWids, inv.hApp, hlen]
    exact List.take_of_length_le (by simp)
  obtain ⟨j, hjfind⟩ := findWidIdx_isSome hmemw
  have hjw : (women0.map Woman.wid)[j]? = some wid := findWidIdx_some hjfind
  have hjLt : j < women0.length := by
    have := (List.getElem?_eq_some_iff.mp hjw).1
    simpa using this
  obtain ⟨w0, hw0⟩ : ∃ w0, women0[j]? = some w0 :=
    ⟨women0[j], List.getElem?_eq_getElem hjLt⟩
  have hw0wid : w0.wid = wid := by
    rw [List.getElem?_map, hw0] at hjw
    exact Option.some.inj hjw
  have hjLtG : j < s.gWomen.length := inv.lenW ▸ hjLt
  obtain ⟨suitress, hj⟩ : ∃ w, s.gWomen[j]? = some w :=
    ⟨s.gWomen[j], List.getElem?_eq_getElem hjLtG⟩
  have hwwid : suitress.wid = wid :=
    ((inv.womanPt j suitress w0 hj hw0).1).trans hw0wid
  have hsw : s.getSuitress wid = some (j, suitress) := by
    simp only [SMState.getSuitress, htake, hjfind, hj]
  have hrest : m0.pref_list.drop (suitor.proposals_made + 1)
      = m0.pref_list.drop (suitor.proposals_made + 1) := rfl
  by_cases hwfree : suitress.is_free = true
  · -- the woman is free: unconditional accept
    refine ⟨_, matchStep_accept_free s i j suitor suitress wid _ hidx hget
      hlt hrem hsw hwfree,
      GSInv_accept_free hv inv hget hm0 hsf hmadelt hwid rfl hj hw0
        hwwid hwfree, ?_⟩
    have hb : ((suitor.propose
        (m0.pref_list.drop (suitor.proposals_made + 1))).updatePartner
        (suitress.accept suitor.mid)).proposals_made
        = suitor.proposals_made + 1 := rfl
    have hs := sum_map_set (fun m => men0.length - m.proposals_made)
      s.gMen i suitor
      ((suitor.propose
        (m0.pref_list.drop (suitor.proposals_made + 1))).updatePartner
        (suitress.accept suitor.mid)) hget
    simp only [hb] at hs
    show ((s.gMen.set i _).map _).sum + 1 = (s.gMen.map _).sum
    omega
  · have hwf : suitress.is_free = false := by
      revert hwfree
      cases suitress.is_free <;> simp
    obtain ⟨oldMid, hwp⟩ := (inv.womanPt j suitress w0 hj hw0).2.2.2.1 hwf
    obtain ⟨_, hwr⟩ := (inv.womanPt j suitress w0 hj hw0).2.2.2.2 oldMid hwp
    by_cases hcmp : listIndex suitress.pref_list suitor.mid
        < listIndex w0.pref_list oldMid
    · -- strictly preferred: accept with displacement
      refine ⟨_, matchStep_accept_displace s i j suitor suitress wid _
        oldMid _ hidx hget hlt hrem hsw hwf hwp hwr hcmp,
        GSInv_accept_displace hv inv hget hm0 hsf hmadelt hwid rfl hj hw0
          hwwid hwf hwp hwr hcmp, ?_⟩
      -- measure: the displacement map keeps every proposal counter
      obtain ⟨iD, dMan, hmD, hmidD, hfD, hpD⟩ :=
        inv.sym2 j suitress oldMid hj hwp
      have hmidsG : (s.gMen.map Man.mid).Nodup := by
        rw [inv.gMen_mids]
        exact hmnd
      have hiDne : iD ≠ i := by
        intro h
        rw [h] at hmD
        obtain rfl : suitor = dMan := Option.some.inj (hget.symm.trans hmD)
        rw [hsf] at hfD
        cases hfD
      have hmapEq : s.gMen.map (fun m =>
          if (some oldMid : Option Nat) = some m.mid then
            disengage m else m)
          = s.gMen.set iD (disengage dMan) := by
        rw [← hmidD]
        exact map_disengage_eq_set s.gMen iD dMan hmidsG hmD
      have hmidI : (s.gMen.set iD (disengage dMan))[i]? = some suitor := by
        rw [List.getElem?_set_ne hiDne]
        exact hget
      have hs1 := sum_map_set (fun m => men0.length - m.proposals_made)
        s.gMen iD dMan (disengage dMan) hmD
      have hd : (disengage dMan).proposals_made = dMan.proposals_made := rfl
      simp only [hd] at hs1
      have hb : ((suitor.propose
          (m0.pref_list.drop (suitor.proposals_made + 1))).updatePartner
          (suitress.accept suitor.mid)).proposals_made
          = suitor.proposals_made + 1 := rfl
      have hs2 := sum_map_set (fun m => men0.length - m.proposals_made)
        (s.gMen.set iD (disengage dMan)) i suitor
        ((suitor.propose
          (m0.pref_list.drop (suitor.proposals_made + 1))).updatePartner
          (suitress.accept suitor.mid)) hmidI
      simp only [hb] at hs2
      show (((s.gMen.map _).set i _).map _).sum + 1 = (s.gMen.map _).sum
      rw [hmapEq]
      omega
    · -- not preferred: reject
      refine ⟨_, matchStep_reject s i j suitor suitress wid _ _ hidx hget
        hlt hrem hsw hwf hwr hcmp,
        GSInv_reject hv inv hget hm0 hsf hmadelt hwid rfl hj hw0 hwwid
          hwf hwr hcmp, ?_⟩
      have hb : (suitor.propose
          (m0.pref_list.drop (suitor.proposals_made + 1))).proposals_made
          = suitor.proposals_made + 1 := rfl
      have hs := sum_map_set (fun m => men0.length - m.proposals_made)
        s.gMen i suitor
        (suitor.propose
          (m0.pref_list.drop (suitor.proposals_made + 1))) hget
      simp only [hb] at hs
      show ((s.gMen.set i _).map _).sum + 1 = (s.gMen.map _).sum
      omega

/-- Running the loop with more fuel than the remaining-proposal measure
always reaches the normal exit, with at most `measureGS` proposal
rounds. -/
theorem matchLoop_ok {men0 : List Man} {women0 : List Woman}
    (hv : ValidInput men0 women0) :
    ∀ (fuel : Nat) (s : SMState), GSInv men0 women0 s →
    measureGS men0 s < fuel →
    ∃ s' r, matchLoop fuel s = some (.normal, s', r) ∧
      GSInv men0 women0 s' ∧ s'.freeMen ≤ 0 ∧ r ≤ measureGS men0 s := by
  intro fuel
  induction fuel with
  | zero =>
    intro s _ h
    omega
  | succ f ih =>
    intro s inv hlt
    by_cases hfree : 0 < s.freeMen
    · obtain ⟨s', hstep, inv', hmeas⟩ := GSInv_step hv inv hfree
      have hlt' : measureGS men0 s' < f := by omega
      obtain ⟨s2, r, hloop, inv2, hfm, hr⟩ := ih s' inv' hlt'
      refine ⟨s2, r + 1, ?_, inv2, hfm, by omega⟩
      simp [matchLoop, hfree, hstep, hloop]
    · push_neg at hfree
      refine ⟨s, 0, ?_, inv, hfree, Nat.zero_le _⟩
      simp only [matchLoop]
      rw [if_neg (by omega)]

theorem sum_map_const_nat {α : Type} (l : List α) (c : Nat) :
    (l.map (fun _ => c)).sum = l.length * c := by
  induction l with
  | nil => simp
  | cons a rest ih => simp [ih, Nat.succ_mul, Nat.add_comm]

/-- The initial measure is exactly `n²`. -/
theorem measureGS_init {men0 : List Man} {women0 : List Woman}
    (hv : ValidInput men0 women0) :
    measureGS men0 (initState men0 women0)
      = men0.length * men0.length := by
  unfold measureGS initState
  have hc : ∀ m ∈ men0,
      men0.length - m.proposals_made = men0.length := by
    intro m hm
    rw [(hv.2.2.2.1 m hm).1.2.2.2.2]
    simp
  rw [List.map_congr_left hc, sum_map_const_nat]

/-- A completed aliased run on valid input: normal exit after at most
`n²` proposal rounds, with the invariant holding in the final state and
no free man left. -/
theorem runAliased_ok {men0 : List Man} {women0 : List Woman}
    (hv : ValidInput men0 women0) :
    ∃ s' r, runAliased men0 women0 = .ok (some (.normal, s', r)) ∧
      GSInv men0 women0 s' ∧ s'.freeMen ≤ 0 ∧
      r ≤ men0.length * men0.length := by
  have hinit := GSInv_init men0 women0 hv
  have hmeas := measureGS_init hv
  obtain ⟨s', r, hloop, inv', hfm, hr⟩ :=
    matchLoop_ok hv (men0.length * men0.length + 1)
      (initState men0 women0) hinit (by omega)
  refine ⟨s', r, ?_, inv', hfm, by omega⟩
  unfold runAliased runStable
  rw [smInit_eq_initState men0 women0 hv.1]
  simp [Except.map, hloop]

/-! ### Reading the final state -/

theorem GSInv.all_engaged {men0 : List Man} {women0 : List Woman}
    {s : SMState} (inv : GSInv men0 women0 s) (hfm : s.freeMen ≤ 0) :
    ∀ (i : Nat) (m : Man), s.gMen[i]? = some m → m.is_free = false := by
  intro i m hm
  have h0 : s.gMen.countP (fun m => m.is_free) = 0 := by
    have := inv.freeCnt
    omega
  rw [List.countP_eq_zero] at h0
  have := h0 m (List.getElem?_mem hm)
  revert this
  cases m.is_free <;> simp

theorem dictGet?_pairings (d : List (Nat × MStatus)) (k : Nat) :
    dictGet? (d.map (fun kv => (kv.1, kv.2.partner_id))) k
      = (dictGet? d k).map (fun v => v.partner_id) := by
  induction d with
  | nil => simp [dictGet?]
  | cons kv rest ih =>
    by_cases h : kv.1 = k <;> simp [dictGet?, h, ih]

theorem GSInv.status_len {men0 : List Man} {women0 : List Woman}
    {s : SMState} (inv : GSInv men0 women0 s) :
    s.matching_status.length = men0.length := by
  have := congrArg List.length inv.statusKeys
  simpa using this

/-- Positional form of the status invariant for engaged men. -/
theorem GSInv.status_at {men0 : List Man} {women0 : List Woman}
    {s : SMState} (inv : GSInv men0 women0 s)
    (hv : ValidInput men0 women0)
    {k : Nat} {m : Man} (hm : s.gMen[k]? = some m)
    (hfreeM : m.is_free = false) :
    s.matching_status[k]? =
      some (m.mid, ⟨m.partner, false, m.proposals_made⟩) := by
  have hkLt : k < s.gMen.length := (List.getElem?_eq_some_iff.mp hm).1
  have hkLt0 : k < men0.length := inv.lenM ▸ hkLt
  have hklen : k < s.matching_status.length := by
    rw [inv.status_len]
    exact hkLt0
  obtain ⟨kv, hkv⟩ : ∃ kv, s.matching_status[k]? = some kv :=
    ⟨s.matching_status[k], List.getElem?_eq_getElem hklen⟩
  obtain ⟨m0, hm0⟩ : ∃ m0, men0[k]? = some m0 :=
    ⟨men0[k], List.getElem?_eq_getElem hkLt0⟩
  have hfst : kv.1 = m.mid := by
    have h1 : (s.matching_status.map Prod.fst)[k]? = some kv.1 := by
      simp [hkv]
    rw [inv.statusKeys, List.getElem?_map, hm0] at h1
    have : m0.mid = kv.1 := Option.some.inj h1
    rw [← this, (inv.manPt k m m0 hm hm0).1]
  have hndk : (s.matching_status.map Prod.fst).Nodup := by
    rw [inv.statusKeys]
    exact hv.2.1
  have hdg := dictGet?_of_nodup_keys s.matching_status k kv hndk hkv
  rw [hfst] at hdg
  have hacc := inv.statusAcc k m hm hfreeM
  have hsnd : kv.2 = ⟨m.partner, false, m.proposals_made⟩ :=
    Option.some.inj (hdg.symm.trans hacc)
  rw [hkv]
  rw [show kv = (kv.1, kv.2) from rfl, hfst, hsnd]

/-- Looking up a proposer's id in the final `pairings` map returns his
final partner. -/
theorem final_lookup {men0 : List Man} {women0 : List Woman}
    {s : SMState} (hv : ValidInput men0 women0)
    (inv : GSInv men0 women0 s) (hfm : s.freeMen ≤ 0)
    {p : Man} (hp : p ∈ men0) {a : Option Nat}
    (hlook : dictGet? s.pairings p.mid = some a) :
    ∃ (k : Nat) (m : Man), s.gMen[k]? = some m ∧ men0[k]? = some p ∧
      m.mid = p.mid ∧ m.pref_list = p.pref_list ∧ m.is_free = false ∧
      a = m.partner := by
  obtain ⟨k, hk⟩ := List.mem_iff_getElem?.mp hp
  have hkLt0 : k < men0.length := by
    have := (List.getElem?_eq_some_iff.mp hk).1
    exact this
  have hkLtG : k < s.gMen.length := by
    rw [inv.lenM]
    exact hkLt0
  obtain ⟨m, hm⟩ : ∃ m, s.gMen[k]? = some m :=
    ⟨s.gMen[k], List.getElem?_eq_getElem hkLtG⟩
  obtain ⟨hmid, hpref, _, _, _, _⟩ := inv.manPt k m p hm hk
  have heng : m.is_free = false := inv.all_engaged hfm k m hm
  have hst := inv.status_at hv hm heng
  have hlook2 : dictGet? s.pairings m.mid = some m.partner := by
    show dictGet? (s.matching_status.map
      (fun kv => (kv.1, kv.2.partner_id))) m.mid = some m.partner
    rw [dictGet?_pairings]
    have hndk : (s.matching_status.map Prod.fst).Nodup := by
      rw [inv.statusKeys]
      exact hv.2.1
    have := dictGet?_of_nodup_keys s.matching_status k _ hndk hst
    rw [this]
    rfl
  rw [← hmid] at hlook
  have : a = m.partner := Option.some.inj (hlook.symm.trans hlook2)
  exact ⟨k, m, hm, hk, hmid, hpref, heng, this⟩

/-- Stability of the final state: no blocking pair exists. -/
theorem final_stable {men0 : List Man} {women0 : List Woman}
    {s : SMState} (hv : ValidInput men0 women0)
    (inv : GSInv men0 women0 s) (hfm : s.freeMen ≤ 0) :
    ∀ p ∈ men0, ∀ q ∈ men0, ∀ r ∈ women0, ∀ a : Nat,
      dictGet? s.pairings p.mid = some (some a) →
      dictGet? s.pairings q.mid = some (some r.wid) →
      a ≠ r.wid →
      ¬(listIndex p.pref_list r.wid < listIndex p.pref_list a ∧
        listIndex r.pref_list p.mid < listIndex r.pref_list q.mid) := by
  intro p hp q hq r hr a hpa hqa hne hblock
  obtain ⟨h1, h2⟩ := hblock
  have hwnd := hv.2.2.1
  have hwidsG : (s.gWomen.map Woman.wid).Nodup := by
    rw [inv.gWomen_wids]
    exact hwnd
  -- final record of p
  obtain ⟨k, m, hm, hk, hmid, hpref, heng, hpa2⟩ :=
    final_lookup hv inv hfm hp hpa
  have hpa3 : m.partner = some a := hpa2.symm
  -- p's partner sits at the position before his cursor
  obtain ⟨k0, w', hmadeEq, hprefk0, hpart⟩ :=
    ((inv.manPt k m p hm hk).2.2.2.2.2) heng
  have hwa : w' = a := by
    have h3 : some w' = some a := hpart.symm.trans hpa3
    exact Option.some.inj h3
  rw [hwa] at hprefk0
  -- p's preference list is duplicate-free
  have hpperm : p.pref_list.Perm (women0.map Woman.wid) :=
    (hv.2.2.2.1 p hp).2
  have hpnd : p.pref_list.Nodup := hpperm.nodup_iff.mpr hwnd
  have hrank_a : listIndex p.pref_list a = k0 :=
    listIndex_getElem? hpnd hprefk0
  -- p proposed to r earlier
  have hkrlt : listIndex p.pref_list r.wid < m.proposals_made := by
    rw [hmadeEq]
    omega
  have hrmem : r.wid ∈ p.pref_list :=
    hpperm.mem_iff.mpr (List.mem_map_of_mem Woman.wid hr)
  have hprefkr : p.pref_list[listIndex p.pref_list r.wid]? = some r.wid :=
    getElem?_listIndex hrmem
  obtain ⟨jw, w, hwG, hwwidr, hweng, rr, hwrank, hrle⟩ :=
    inv.hist k m (listIndex p.pref_list r.wid) r.wid hm hkrlt
      (by rw [hpref]; exact hprefkr)
  -- final record of q and his woman
  obtain ⟨k', m', hm', hk', hmid', _, heng', hqa2⟩ :=
    final_lookup hv inv hfm hq hqa
  obtain ⟨jq, wq, hwqG, hpq, hqpart⟩ := inv.sym1 k' m' hm' heng'
  have hwqwid : wq.wid = r.wid := by
    have h4 : some wq.wid = some r.wid := hpq.symm.trans hqa2.symm
    exact Option.some.inj h4
  -- the two women with wid `r.wid` coincide
  have hjj : jq = jw := by
    by_contra hc
    exact (nodup_map_getElem?_ne Woman.wid s.gWomen hwidsG hwqG hwG hc)
      (hwqwid.trans hwwidr.symm)
  rw [hjj] at hwqG
  obtain rfl : w = wq := Option.some.inj (hwG.symm.trans hwqG)
  -- identify the woman's original record with r
  have hjwLt : jw < s.gWomen.length := (List.getElem?_eq_some_iff.mp hwG).1
  have hjwLt0 : jw < women0.length := inv.lenW ▸ hjwLt
  obtain ⟨w0, hw0⟩ : ∃ w0, women0[jw]? = some w0 :=
    ⟨women0[jw], List.getElem?_eq_getElem hjwLt0⟩
  obtain ⟨hwwid0, hwpref, _, _, hwpr⟩ := inv.womanPt jw w w0 hwG hw0
  have hw0r : w0 = r := by
    obtain ⟨jr, hjr⟩ := List.mem_iff_getElem?.mp hr
    by_cases hc : jw = jr
    · rw [hc] at hw0
      exact Option.some.inj (hw0.symm.trans hjr)
    · exfalso
      exact (nodup_map_getElem?_ne Woman.wid women0 hwnd hw0 hjr hc)
        (hwwid0.symm.trans hwwidr)
  subst hw0r
  obtain ⟨_, hqrank⟩ := hwpr m'.mid hqpart
  have hrr : rr = listIndex w0.pref_list m'.mid :=
    Option.some.inj (hwrank.symm.trans hqrank)
  have hfinal : listIndex w0.pref_list q.mid ≤ listIndex w0.pref_list p.mid := by
    calc listIndex w0.pref_list q.mid
        = rr := by rw [hrr, hmid']
      _ ≤ listIndex w.pref_list m.mid := hrle
      _ = listIndex w0.pref_list p.mid := by rw [hwpref, hmid]
  omega

theorem final_pairings_keys {men0 : List Man} {women0 : List Woman}
    {s : SMState} (inv : GSInv men0 women0 s) :
    s.pairings.map Prod.fst = men0.map Man.mid := by
  show (s.matching_status.map
    (fun kv => (kv.1, kv.2.partner_id))).map Prod.fst = _
  rw [List.map_map]
  exact inv.statusKeys

/-- In the final state every position holds an engaged man together with
his (mutually engaged) woman. -/
theorem final_at {men0 : List Man} {women0 : List Woman}
    {s : SMState} (hv : ValidInput men0 women0)
    (inv : GSInv men0 women0 s) (hfm : s.freeMen ≤ 0) :
    ∀ k, k < men0.length → ∃ (m : Man) (jw : Nat) (w : Woman),
      s.gMen[k]? = some m ∧
      (s.pairings.map Prod.snd)[k]? = some m.partner ∧
      s.gWomen[jw]? = some w ∧ m.partner = some w.wid ∧
      w.partner = some m.mid := by
  intro k hk
  have hkG : k < s.gMen.length := by
    rw [inv.lenM]
    exact hk
  obtain ⟨m, hm⟩ : ∃ m, s.gMen[k]? = some m :=
    ⟨s.gMen[k], List.getElem?_eq_getElem hkG⟩
  have heng : m.is_free = false := inv.all_engaged hfm k m hm
  have hst := inv.status_at hv hm heng
  obtain ⟨jw, w, hw, hp, hwp⟩ := inv.sym1 k m hm heng
  refine ⟨m, jw, w, hm, ?_, hw, hp, hwp⟩
  show ((s.matching_status.map
    (fun kv => (kv.1, kv.2.partner_id))).map Prod.snd)[k]? = _
  rw [List.getElem?_map, List.getElem?_map, hst]
  rfl

theorem final_pairings_values {men0 : List Man} {women0 : List Woman}
    {s : SMState} (hv : ValidInput men0 women0)
    (inv : GSInv men0 women0 s) (hfm : s.freeMen ≤ 0) :
    (s.pairings.map Prod.snd).Perm
      (women0.map (fun w => some w.wid)) := by
  have hmnd := hv.2.1
  have hwnd := hv.2.2.1
  have hmidsG : (s.gMen.map Man.mid).Nodup := by
    rw [inv.gMen_mids]
    exact hmnd
  have hwidsG : (s.gWomen.map Woman.wid).Nodup := by
    rw [inv.gWomen_wids]
    exact hwnd
  have hlenV : (s.pairings.map Prod.snd).length = men0.length := by
    show ((s.matching_status.map
      (fun kv => (kv.1, kv.2.partner_id))).map Prod.snd).length = _
    simp [inv.status_len]
  -- the value list has no duplicates
  have hnodup : (s.pairings.map Prod.snd).Nodup := by
    rw [List.nodup_iff_getElem?_ne_getElem?]
    intro k k' hkk' hk'len heq
    have hk'0 : k' < men0.length := by
      rw [← hlenV]
      exact hk'len
    have hk0 : k < men0.length := Nat.lt_trans hkk' hk'0
    obtain ⟨m, jw, w, hm, hvk, hw, hp, hwp⟩ := final_at hv inv hfm k hk0
    obtain ⟨m', jw', w', hm', hvk', hw', hp', hwp'⟩ :=
      final_at hv inv hfm k' hk'0
    rw [hvk, hvk'] at heq
    have hpeq : m.partner = m'.partner := Option.some.inj heq
    have hwideq : w.wid = w'.wid := by
      have h5 : some w.wid = some w'.wid :=
        hp.symm.trans (hpeq.trans hp')
      exact Option.some.inj h5
    have hjj : jw = jw' := by
      by_contra hc
      exact (nodup_map_getElem?_ne Woman.wid s.gWomen hwidsG hw hw' hc)
        hwideq
    rw [hjj] at hw
    obtain rfl : w' = w := Option.some.inj (hw'.symm.trans hw)
    have hmideq : m.mid = m'.mid := by
      have h6 : some m.mid = some m'.mid := hwp.symm.trans hwp'
      exact Option.some.inj h6
    exact (nodup_map_getElem?_ne Man.mid s.gMen hmidsG hm hm'
      (Nat.ne_of_lt hkk')) hmideq
  -- every value is some woman's wid
  have hsub : (s.pairings.map Prod.snd)
      ⊆ women0.map (fun w => some w.wid) := by
    intro v hv2
    obtain ⟨k, hkv⟩ := List.mem_iff_getElem?.mp hv2
    have hk0 : k < men0.length := by
      rw [← hlenV]
      exact (List.getElem?_eq_some_iff.mp hkv).1
    obtain ⟨m, jw, w, hm, hvk, hw, hp, hwp⟩ := final_at hv inv hfm k hk0
    rw [hvk] at hkv
    obtain rfl : m.partner = v := Option.some.inj hkv
    have hwmem : w.wid ∈ s.gWomen.map Woman.wid :=
      List.mem_map_of_mem Woman.wid (List.getElem?_mem hw)
    rw [inv.gWomen_wids] at hwmem
    obtain ⟨w0, hw0mem, hw0wid⟩ := List.mem_map.mp hwmem
    refine List.mem_map.mpr ⟨w0, hw0mem, ?_⟩
    rw [hw0wid, ← hp]
  have hlen2 : (women0.map (fun w => some w.wid)).length
      ≤ (s.pairings.map Prod.snd).length := by
    rw [hlenV]
    simp [hv.1]
  exact (List.subperm_of_subset hnodup hsub).perm_of_length_le hlen2

/-! ### Main claim theorems: stability, completeness, termination -/

/-- C1: for every valid input (equal-length groups, fresh agents, each
preference list a strict duplicate-free permutation of the other group's
ids), the aliased run reaches the normal (Stable) exit and the returned
`pairings` mapping is stable: for every pair `(p, r)` not matched to each
other (`p`'s partner `a ≠ r.wid`, `q` being `r`'s partner), it is false
that `p` ranks `r` strictly better than `a` and `r` ranks `p` strictly
better than `q`. -/
theorem match_result_stable (men0 : List Man) (women0 : List Woman)
    (hv : ValidInput men0 women0) :
    ∃ (s' : SMState) (rounds : Nat),
      runAliased men0 women0 = .ok (some (.normal, s', rounds)) ∧
      ∀ p ∈ men0, ∀ q ∈ men0, ∀ r ∈ women0, ∀ a : Nat,
        dictGet? s'.pairings p.mid = some (some a) →
        dictGet? s'.pairings q.mid = some (some r.wid) →
        a ≠ r.wid →
        ¬(listIndex p.pref_list r.wid < listIndex p.pref_list a ∧
          listIndex r.pref_list p.mid < listIndex r.pref_list q.mid) := by
  obtain ⟨s', r, hrun, inv', hfm, _⟩ := runAliased_ok hv
  exact ⟨s', r, hrun, final_stable hv inv' hfm⟩

/-- Witness for `match_result_stable` at the one-pair instance. -/
theorem match_result_stable_witness :
    ∃ (s' : SMState) (rounds : Nat),
      runAliased [mkMan 0 [0]] [mkWoman 0 [0]]
        = .ok (some (.normal, s', rounds)) ∧
      ∀ p ∈ [mkMan 0 [0]], ∀ q ∈ [mkMan 0 [0]],
        ∀ r ∈ [mkWoman 0 [0]], ∀ a : Nat,
        dictGet? s'.pairings p.mid = some (some a) →
        dictGet? s'.pairings q.mid = some (some r.wid) →
        a ≠ r.wid →
        ¬(listIndex p.pref_list r.wid < listIndex p.pref_list a ∧
          listIndex r.pref_list p.mid < listIndex r.pref_list q.mid) :=
  match_result_stable [mkMan 0 [0]] [mkWoman 0 [0]] (by decide)

/-- C2: for every valid input of size `n ≥ 1`, the final `pairings`
mapping is a bijection: its keys are exactly the Proposer ids (each
exactly once, in construction order) and its values are exactly the
Reviewer ids (each exactly once, as a permutation, all present — no
partial result). -/
theorem match_result_bijection (men0 : List Man) (women0 : List Woman)
    (hv : ValidInput men0 women0) (hn : 1 ≤ men0.length) :
    ∃ (s' : SMState) (rounds : Nat),
      runAliased men0 women0 = .ok (some (.normal, s', rounds)) ∧
      s'.pairings.map Prod.fst = men0.map Man.mid ∧
      (s'.pairings.map Prod.snd).Perm
        (women0.map (fun w => some w.wid)) := by
  obtain ⟨s', r, hrun, inv', hfm, _⟩ := runAliased_ok hv
  exact ⟨s', r, hrun, final_pairings_keys inv',
    final_pairings_values hv inv' hfm⟩

/-- Witness for `match_result_bijection` at the one-pair instance. -/
theorem match_result_bijection_witness :
    ∃ (s' : SMState) (rounds : Nat),
      runAliased [mkMan 0 [0]] [mkWoman 0 [0]]
        = .ok (some (.normal, s', rounds)) ∧
      s'.pairings.map Prod.fst = [mkMan 0 [0]].map Man.mid ∧
      (s'.pairings.map Prod.snd).Perm
        ([mkWoman 0 [0]].map (fun w => some w.wid)) :=
  match_result_bijection [mkMan 0 [0]] [mkWoman 0 [0]] (by decide)
    (by decide)

/-- C6: every valid aliased run terminates (the loop reaches the normal
exit within the supplied `n² + 1` fuel) and dispatches at most `n²`
proposal rounds. -/
theorem match_terminates_quadratic (men0 : List Man) (women0 : List Woman)
    (hv : ValidInput men0 women0) :
    ∃ (s' : SMState) (rounds : Nat),
      runAliased men0 women0 = .ok (some (.normal, s', rounds)) ∧
      rounds ≤ men0.length * men0.length := by
  obtain ⟨s', r, hrun, _, _, hr⟩ := runAliased_ok hv
  exact ⟨s', r, hrun, hr⟩

/-- Witness for `match_terminates_quadratic` at the one-pair instance. -/
theorem match_terminates_quadratic_witness :
    ∃ (s' : SMState) (rounds : Nat),
      runAliased [mkMan 0 [0]] [mkWoman 0 [0]]
        = .ok (some (.normal, s', rounds)) ∧
      rounds ≤ [mkMan 0 [0]].length * [mkMan 0 [0]].length :=
  match_terminates_quadratic [mkMan 0 [0]] [mkWoman 0 [0]] (by decide)
